import Mathlib

/-!
Verification development for flatFortiGatePolicy.js.

This file shallowly embeds the core functions of the repository
(src/flatFortiGatePolicy.js) in Lean 4 and proves properties about them.

Conventions of the embedding:
* JavaScript strings are Lean `String`s; character-level processing uses
  `List Char`.
* JavaScript numbers are modelled exactly (as `Nat`/`Int`); where the source
  stores a value into a `Uint8Array`/`Uint16Array`, the embedding applies the
  corresponding truncation (`% 256` / `% 65536`, with `NaN` becoming `0`,
  as ECMAScript's ToUint8/ToUint16 do).
* `parseInt`/`Number` applied to strings are embedded by explicit parsers
  returning `Option Int` (`none` plays the role of `NaN`).
* Comparisons involving a possible `NaN` follow ECMAScript: every ordered
  comparison with `NaN` is false, and `NaN` is equal to nothing.
-/

namespace FlatFortiGate

/-! ## Small JavaScript string/number primitives -/

/-- Whitespace recognized by JavaScript's `trim`, `parseInt` and `Number`
(the ASCII part, which is all that occurs in this pipeline). -/
def jsIsSpace (c : Char) : Bool :=
  c = ' ' || c = '\t' || c = '\n' || c = '\r' || c = '\x0b' || c = '\x0c'

/-- Decimal digit test. -/
def isDigitChar (c : Char) : Bool :=
  '0' ≤ c && c ≤ '9'

/-- Hexadecimal digit test. -/
def isHexDigitChar (c : Char) : Bool :=
  ('0' ≤ c && c ≤ '9') || ('a' ≤ c && c ≤ 'f') || ('A' ≤ c && c ≤ 'F')

/-- Value of a decimal digit character. -/
def digitVal (c : Char) : ℕ := c.toNat - '0'.toNat

/-- Value of a hexadecimal digit character. -/
def hexDigitVal (c : Char) : ℕ :=
  if '0' ≤ c && c ≤ '9' then c.toNat - '0'.toNat
  else if 'a' ≤ c && c ≤ 'f' then c.toNat - 'a'.toNat + 10
  else if 'A' ≤ c && c ≤ 'F' then c.toNat - 'A'.toNat + 10
  else 0

/-- Accumulate a run of decimal digits into a natural number. -/
def natOfDigits (cs : List Char) : ℕ :=
  cs.foldl (fun acc c => acc * 10 + digitVal c) 0

/-- Accumulate a run of hexadecimal digits into a natural number. -/
def natOfHexDigits (cs : List Char) : ℕ :=
  cs.foldl (fun acc c => acc * 16 + hexDigitVal c) 0

/-- Split worker: scan `cs`, emitting a fragment at each non-overlapping
leftmost occurrence of `sep`.  `fuel` bounds the recursion (any
`fuel ≥ cs.length` gives the same result for a nonempty `sep`); the
recursion is structural on `fuel` so that the kernel can evaluate it. -/
def splitGo (sep : List Char) : ℕ → List Char → List Char → List (List Char)
  | _, [], acc => [acc.reverse]
  | 0, cs, acc => [acc.reverse ++ cs]
  | fuel + 1, c :: rest, acc =>
    if sep.isPrefixOf (c :: rest) then
      acc.reverse :: splitGo sep fuel ((c :: rest).drop sep.length) []
    else
      splitGo sep fuel rest (c :: acc)

/-- Embedding of JavaScript `String.prototype.split` with a nonempty
separator string: `''.split(sep) = ['']`, separators are found
left-to-right without overlap, adjacent separators yield empty fragments. -/
def jsSplit (s sep : String) : List String :=
  (splitGo sep.data s.data.length s.data []).map fun l => ⟨l⟩

/-- Kernel-computable `startsWith`. -/
def jsStartsWith (s pat : String) : Bool :=
  pat.data.isPrefixOf s.data

/-- Kernel-computable `endsWith`. -/
def jsEndsWith (s pat : String) : Bool :=
  pat.data.reverse.isPrefixOf s.data.reverse

/-- Kernel-computable substring-containment test for a single character
(JavaScript `indexOf(c) != -1`). -/
def jsContainsChar (s : String) (c : Char) : Bool :=
  s.data.any (fun d => d = c)

/-- Element of a list of strings at an index, with JavaScript's
out-of-range behavior mapped to the empty string (`undefined` used as a
string operand behaves like a failed parse everywhere it occurs here). -/
def atIdx (l : List String) (i : ℕ) : String :=
  l.getD i ""

/-- Embedding of JavaScript `parseInt(s)` (radix unspecified, so base 10
unless the digits begin with `0x`/`0X`): skip leading whitespace, read an
optional sign, then consume the longest digit run; `none` models `NaN`
(no digits at all). -/
def jsParseInt (s : String) : Option Int :=
  let cs := s.data.dropWhile jsIsSpace
  let (sgn, cs) : Int × List Char :=
    match cs with
    | '-' :: rest => (-1, rest)
    | '+' :: rest => (1, rest)
    | rest => (1, rest)
  match cs with
  | '0' :: 'x' :: rest =>
    let ds := rest.takeWhile isHexDigitChar
    if ds.isEmpty then none else some (sgn * (natOfHexDigits ds : Int))
  | '0' :: 'X' :: rest =>
    let ds := rest.takeWhile isHexDigitChar
    if ds.isEmpty then none else some (sgn * (natOfHexDigits ds : Int))
  | _ =>
    let ds := cs.takeWhile isDigitChar
    if ds.isEmpty then none else some (sgn * (natOfDigits ds : Int))

/-- Embedding of JavaScript `parseInt(s, 16)`: skip leading whitespace, read
an optional sign and optional `0x`/`0X` prefix, then consume the longest
hexadecimal digit run; `none` models `NaN`. -/
def jsParseIntHex (s : String) : Option Int :=
  let cs := s.data.dropWhile jsIsSpace
  let (sgn, cs) : Int × List Char :=
    match cs with
    | '-' :: rest => (-1, rest)
    | '+' :: rest => (1, rest)
    | rest => (1, rest)
  let cs :=
    match cs with
    | '0' :: 'x' :: rest => rest
    | '0' :: 'X' :: rest => rest
    | rest => rest
  let ds := cs.takeWhile isHexDigitChar
  if ds.isEmpty then none else some (sgn * (natOfHexDigits ds : Int))

/-- Ordered `<` with `NaN` semantics: any comparison involving `NaN` is
false. -/
def jsLt (a b : Option Int) : Bool :=
  match a, b with
  | some x, some y => x < y
  | _, _ => false

/-- Ordered `>` with `NaN` semantics. -/
def jsGt (a b : Option Int) : Bool :=
  match a, b with
  | some x, some y => y < x
  | _, _ => false

/-- Loose equality `==` on numbers with `NaN` semantics (`NaN` equals
nothing, not even itself). -/
def jsEqNum (a b : Option Int) : Bool :=
  match a, b with
  | some x, some y => x = y
  | _, _ => false

/-- ECMAScript ToUint8 applied to a parsed number (`NaN` becomes `0`), as
happens when the source stores `parseInt` results into a `Uint8Array`. -/
def toUint8 (a : Option Int) : ℕ :=
  match a with
  | some x => (x % 256).toNat
  | none => 0

/-- ECMAScript ToUint16 applied to a parsed number (`NaN` becomes `0`), as
happens when the source stores `parseInt` results into a `Uint16Array`. -/
def toUint16 (a : Option Int) : ℕ :=
  match a with
  | some x => (x % 65536).toNat
  | none => 0

/-- Embedding of the source's `String.prototype.trimString`: strip at most
one leading and one trailing occurrence of `pat` (the `substring` call swaps
its endpoints when they cross, exactly as JavaScript does). -/
def trimStringJS (s pat : String) : String :=
  let st := if jsStartsWith s pat then pat.data.length else 0
  let en := s.data.length - (if jsEndsWith s pat then pat.data.length else 0)
  let lo := min st en
  let hi := max st en
  ⟨(s.data.drop lo).take (hi - lo)⟩

/-! ## Protocol classification (service protocol-class bits)

Source: `getProtocolTypeBit` / `getProtocolTypeBitsOfArray` and the
`is*Protocol` helpers (src/flatFortiGatePolicy.js, lines 1309-1449). -/

/-- Bit flag: no protocol class. -/
def PROTOCOL_TYPE_BIT_NONE : ℕ := 0x0000

/-- Bit flag: IP protocol class. -/
def PROTOCOL_TYPE_BIT_IP : ℕ := 0x0001

/-- Bit flag: ICMP/ICMPv6 protocol class. -/
def PROTOCOL_TYPE_BIT_ICMP_ICMP6 : ℕ := 0x0002

/-- Bit flag: TCP/UDP/SCTP protocol class. -/
def PROTOCOL_TYPE_BIT_TCP_UDP_SCTP : ℕ := 0x0004

/-- Bit flag: unsupported protocol class. -/
def PROTOCOL_TYPE_BIT_UNSUPPORTED : ℕ := 0x1000

/-- Source `isIpProtocol`. -/
def isIpProtocol (s : String) : Bool := s = "ip"

/-- Source `isIcmpProtocol`. -/
def isIcmpProtocol (s : String) : Bool := s = "1"

/-- Source `isIcmp6Protocol`. -/
def isIcmp6Protocol (s : String) : Bool := s = "58"

/-- Source `isTcpProtocol`. -/
def isTcpProtocol (s : String) : Bool := s = "6"

/-- Source `isUdpProtocol`. -/
def isUdpProtocol (s : String) : Bool := s = "17"

/-- Source `isSctpProtocol`. -/
def isSctpProtocol (s : String) : Bool := s = "132"

/-- Embedding of `Number.isInteger(+s)` for a string `s`: the string is
trimmed and must be a complete ECMAScript string numeric literal whose value
is an integer.  Numeric values are modelled exactly (arbitrary precision);
hex/octal/binary integer literals are always integers, `Infinity` and `NaN`
are not, the empty (or all-whitespace) string converts to `0`. -/
def jsIsIntegerNumberString (s : String) : Bool :=
  let cs := (s.data.dropWhile jsIsSpace).reverse.dropWhile jsIsSpace |>.reverse
  if cs.isEmpty then true
  else
    match cs with
    | '0' :: 'x' :: rest => !rest.isEmpty && rest.all isHexDigitChar
    | '0' :: 'X' :: rest => !rest.isEmpty && rest.all isHexDigitChar
    | '0' :: 'b' :: rest => !rest.isEmpty && rest.all (fun c => c = '0' || c = '1')
    | '0' :: 'B' :: rest => !rest.isEmpty && rest.all (fun c => c = '0' || c = '1')
    | '0' :: 'o' :: rest => !rest.isEmpty && rest.all (fun c => '0' ≤ c && c ≤ '7')
    | '0' :: 'O' :: rest => !rest.isEmpty && rest.all (fun c => '0' ≤ c && c ≤ '7')
    | _ =>
      let cs := match cs with
                | '-' :: rest => rest
                | '+' :: rest => rest
                | rest => rest
      if cs = "Infinity".data then false
      else
        let intPart := cs.takeWhile isDigitChar
        let cs := cs.drop intPart.length
        let (fracPart, cs) : List Char × List Char :=
          match cs with
          | '.' :: rest => (rest.takeWhile isDigitChar, rest.drop (rest.takeWhile isDigitChar).length)
          | rest => ([], rest)
        let (expOk, expVal, cs) : Bool × Int × List Char :=
          match cs with
          | 'e' :: rest =>
            let (esgn, rest) : Int × List Char :=
              match rest with
              | '-' :: r => (-1, r)
              | '+' :: r => (1, r)
              | r => (1, r)
            let ds := rest.takeWhile isDigitChar
            (!ds.isEmpty, esgn * (natOfDigits ds : Int), rest.drop ds.length)
          | 'E' :: rest =>
            let (esgn, rest) : Int × List Char :=
              match rest with
              | '-' :: r => (-1, r)
              | '+' :: r => (1, r)
              | r => (1, r)
            let ds := rest.takeWhile isDigitChar
            (!ds.isEmpty, esgn * (natOfDigits ds : Int), rest.drop ds.length)
          | rest => (true, 0, rest)
        if !cs.isEmpty || !expOk || (intPart.isEmpty && fracPart.isEmpty) then false
        else
          let m := natOfDigits (intPart ++ fracPart)
          let E : Int := expVal - fracPart.length
          0 ≤ E || m % 10 ^ (-E).toNat = 0

/-- Embedding of `getProtocolTypeBit`: the protocol-class bit of one leading
protocol token. -/
def getProtocolTypeBit (strProtocol : String) : ℕ :=
  if isIcmpProtocol strProtocol then PROTOCOL_TYPE_BIT_ICMP_ICMP6
  else if isIcmp6Protocol strProtocol then PROTOCOL_TYPE_BIT_ICMP_ICMP6
  else if isTcpProtocol strProtocol then PROTOCOL_TYPE_BIT_TCP_UDP_SCTP
  else if isUdpProtocol strProtocol then PROTOCOL_TYPE_BIT_TCP_UDP_SCTP
  else if isSctpProtocol strProtocol then PROTOCOL_TYPE_BIT_TCP_UDP_SCTP
  else if isIpProtocol strProtocol then PROTOCOL_TYPE_BIT_IP
  else if jsIsIntegerNumberString strProtocol then PROTOCOL_TYPE_BIT_IP
  else if strProtocol = "undefined" then PROTOCOL_TYPE_BIT_NONE
  else PROTOCOL_TYPE_BIT_UNSUPPORTED

/-- Leading protocol token of a service value token: the part before the
first `/` of the part before the first `;` (as extracted inside
`getProtocolTypeBitsOfArray`). -/
def leadingProtocolToken (v : String) : String :=
  atIdx (jsSplit (atIdx (jsSplit v ";") 0) "/") 0

/-- Embedding of `getProtocolTypeBitsOfArray`: OR of the protocol-class bits
of the leading protocol tokens of all service value tokens. -/
def getProtocolTypeBitsOfArray (l : List String) : ℕ :=
  l.foldl (fun acc v => acc ||| getProtocolTypeBit (leadingProtocolToken v)) PROTOCOL_TYPE_BIT_NONE

/-- Protocol classification as stated by the amended claim C4 (a spec-side
model, to be compared with `getProtocolTypeBit`): ICMP for `1`/`58`;
TCP/UDP/SCTP for `6`/`17`/`132`; IP for `ip` or any other string whose
numeric coercion is an integer; NONE for `undefined`; UNSUPPORTED for
everything else. -/
def protocolClassOfClaim (s : String) : ℕ :=
  if s = "1" || s = "58" then PROTOCOL_TYPE_BIT_ICMP_ICMP6
  else if s = "6" || s = "17" || s = "132" then PROTOCOL_TYPE_BIT_TCP_UDP_SCTP
  else if s = "ip" || jsIsIntegerNumberString s then PROTOCOL_TYPE_BIT_IP
  else if s = "undefined" then PROTOCOL_TYPE_BIT_NONE
  else PROTOCOL_TYPE_BIT_UNSUPPORTED

/-- Claim C4, counterexample: the claim says the protocol-class bit of the
leading token `undefined` is UNSUPPORTED, but `getProtocolTypeBit` has an
explicit branch mapping `undefined` to NONE (no bit set), which is a
different value. -/
theorem claim_C4_counterexample :
    getProtocolTypeBit (leadingProtocolToken "undefined;-") = PROTOCOL_TYPE_BIT_NONE ∧
    PROTOCOL_TYPE_BIT_NONE ≠ PROTOCOL_TYPE_BIT_UNSUPPORTED := by
  decide

/-- Claim C4 (amended): for every string, the protocol-class bit computed by
`getProtocolTypeBit` is ICMP for `1`/`58`, TCP/UDP/SCTP for `6`/`17`/`132`,
IP for `ip` or any other integer string, NONE for `undefined`, and
UNSUPPORTED for every other token; `getProtocolTypeBitsOfArray` ORs these
bits over the leading protocol tokens of the value list. -/
theorem claim_C4_amended :
    (∀ s : String, getProtocolTypeBit s = protocolClassOfClaim s) ∧
    (∀ l : List String, getProtocolTypeBitsOfArray l =
      l.foldl (fun acc v => acc ||| protocolClassOfClaim (leadingProtocolToken v))
        PROTOCOL_TYPE_BIT_NONE) := by
  have h : ∀ s : String, getProtocolTypeBit s = protocolClassOfClaim s := by
    intro s
    unfold getProtocolTypeBit protocolClassOfClaim isIcmpProtocol isIcmp6Protocol
      isTcpProtocol isUdpProtocol isSctpProtocol isIpProtocol
    split_ifs <;> simp_all
  refine ⟨h, fun l => ?_⟩
  unfold getProtocolTypeBitsOfArray
  induction l using List.reverseRecOn with
  | nil => rfl
  | append_singleton xs x ih => simp [List.foldl_append, ih, h]

/-! ## IPv4 range to CIDR decomposition

Source: `makeIPv4SubnetFromRange` (src/flatFortiGatePolicy.js, lines
2225-2260) and `toIPv4AddrString` (line 2167).  The source pushes formatted
strings while recursing on integer bounds; the embedding separates the two:
`mkRangeInt` produces the emitted `(blockStart, prefixLength)` pairs in
emission order, and `makeIPv4SubnetFromRange` formats them, preserving that
order.  The source's `intSegSize` variable always equals `2^(32-i)` at the
top of iteration `i` (it starts at `2^31` and is halved once per
iteration), so the embedding computes it from `i`.  The source's
`intBlockEnd` can be `-1` in JavaScript (when the rounded-down block end
precedes address 0); the embedding works with `blockEnd + 1` throughout,
so the guard `blockStart <= blockEnd` becomes `bs < be1`. -/

/-- Formatting of a 32-bit integer as a dotted quad (source
`toIPv4AddrString`, which applies `>>> k & 0xFF` to each octet). -/
def toIPv4AddrString (n : ℕ) : String :=
  let m := n % 2 ^ 32
  Nat.repr (m / 2 ^ 24 % 256) ++ "." ++ Nat.repr (m / 2 ^ 16 % 256) ++ "." ++
    Nat.repr (m / 2 ^ 8 % 256) ++ "." ++ Nat.repr (m % 256)

/-- Blocks emitted by the source's inner `while` loop: `n` consecutive
aligned segments of size `z` starting at `b`, each tagged with the prefix
length `i`. -/
def segsInt (i z b : ℕ) : ℕ → List (ℕ × ℕ)
  | 0 => []
  | n + 1 => (b, i) :: segsInt i z (b + z) n

/-- Start of the aligned window: `s` rounded up to the next multiple of
`z` (the source's `intBlockStart`). -/
def blockLo (z s : ℕ) : ℕ := (s + z - 1) / z * z

/-- One past the end of the aligned window: `e + 1` rounded down to a
multiple of `z` (the source's `intBlockEnd + 1`). -/
def blockHi1 (z e : ℕ) : ℕ := (e + 1) / z * z

/-- Rounding `s` up to the next multiple of `z` never decreases it. -/
theorem blockLo_ge (s z : ℕ) (hz : 0 < z) : s ≤ blockLo z s := by
  unfold blockLo
  have h1 : z * ((s + z - 1) / z) + (s + z - 1) % z = s + z - 1 := Nat.div_add_mod _ _
  have h2 : (s + z - 1) % z < z := Nat.mod_lt _ hz
  have h3 : z * ((s + z - 1) / z) = (s + z - 1) / z * z := Nat.mul_comm _ _
  omega

/-- Rounding `e+1` down to a multiple of `z` never increases it. -/
theorem blockHi1_le (e z : ℕ) : blockHi1 z e ≤ e + 1 :=
  Nat.div_mul_le_self _ _

/-- The window start is a multiple of `z`. -/
theorem dvd_blockLo (s z : ℕ) : z ∣ blockLo z s :=
  Dvd.intro_left _ rfl

/-- The window end is a multiple of `z`. -/
theorem dvd_blockHi1 (e z : ℕ) : z ∣ blockHi1 z e :=
  Dvd.intro_left _ rfl

mutual

/-- Embedding of `makeIPv4SubnetFromRange` at the integer level: the list
of `(blockStart, prefixLength)` pairs, in emission order.  The recursion
follows the source exactly: the outer `for` loop over prefix lengths
`i = 1..32` is `msLoopInt`, which recurses into `mkRangeInt` for the
fragment left of the aligned window and for the fragment right of it. -/
def mkRangeInt (s e : ℕ) : List (ℕ × ℕ) :=
  msLoopInt 1 s e
termination_by (e + 1 - s, 33)
decreasing_by exact Prod.Lex.right _ (by omega)

/-- Loop body of `makeIPv4SubnetFromRange` from iteration `i` on, with
current state `(s, e)`; see `mkRangeInt`.  After the aligned window
`[bs, be1)` is processed, the source sets `intStartAddr` to `be1` and
`intEndAddr` to `be1 - 1`, so the remaining iterations run on that empty
range. -/
def msLoopInt (i s e : ℕ) : List (ℕ × ℕ) :=
  if _hle : 32 < i then []
  else
    if hfit : blockLo (2 ^ (32 - i)) s < blockHi1 (2 ^ (32 - i)) e then
      (if hlt : s < blockLo (2 ^ (32 - i)) s then
        mkRangeInt s (blockLo (2 ^ (32 - i)) s - 1) else [])
        ++ segsInt i (2 ^ (32 - i)) (blockLo (2 ^ (32 - i)) s)
            ((blockHi1 (2 ^ (32 - i)) e - blockLo (2 ^ (32 - i)) s) / 2 ^ (32 - i))
        ++ (if hre : blockHi1 (2 ^ (32 - i)) e ≤ e then
            mkRangeInt (blockHi1 (2 ^ (32 - i)) e) e else [])
        ++ msLoopInt (i + 1) (blockHi1 (2 ^ (32 - i)) e) (blockHi1 (2 ^ (32 - i)) e - 1)
    else
      msLoopInt (i + 1) s e
termination_by (e + 1 - s, 33 - i)
decreasing_by
all_goals
  have hz : 0 < 2 ^ (32 - i) := pow_pos (by norm_num) _
  have h1 := blockLo_ge s (2 ^ (32 - i)) hz
  have h2 := blockHi1_le e (2 ^ (32 - i))
  first
  | exact Prod.Lex.left _ _ (by omega)
  | exact Prod.Lex.right _ (by omega)

end

/-- Embedding of `makeIPv4SubnetFromRange`: the CIDR strings pushed into
the output array, in emission order. -/
def makeIPv4SubnetFromRange (s e : ℕ) : List String :=
  (mkRangeInt s e).map fun bp => toIPv4AddrString bp.1 ++ "/" ++ Nat.repr bp.2


/-- Membership of address `a` in the address set of an emitted block
`(base, prefixLength)`: the block covers `2^(32-prefix)` consecutive
addresses starting at `base`. -/
def inBlock (bp : ℕ × ℕ) (a : ℕ) : Prop :=
  bp.1 ≤ a ∧ a < bp.1 + 2 ^ (32 - bp.2)

/-- The address sets of the listed blocks cover exactly the half-open
interval `[lo, hi)`. -/
def coversExactly (l : List (ℕ × ℕ)) (lo hi : ℕ) : Prop :=
  ∀ a, (∃ bp ∈ l, inBlock bp a) ↔ lo ≤ a ∧ a < hi

/-- The listed blocks are pairwise disjoint as address sets. -/
def blocksDisjoint (l : List (ℕ × ℕ)) : Prop :=
  l.Pairwise fun x y => ∀ a, inBlock x a → ¬ inBlock y a

/-- An emitted block is a genuine CIDR block: prefix length between 1 and
32 and base aligned to the block size. -/
def wellFormedBlock (bp : ℕ × ℕ) : Prop :=
  1 ≤ bp.2 ∧ bp.2 ≤ 32 ∧ 2 ^ (32 - bp.2) ∣ bp.1

/-- Blocks that tile `[lo, hi)` exactly: they cover it, are pairwise
disjoint, and are well formed. -/
def GoodB (l : List (ℕ × ℕ)) (lo hi : ℕ) : Prop :=
  coversExactly l lo hi ∧ blocksDisjoint l ∧ ∀ bp ∈ l, wellFormedBlock bp

theorem GoodB_nil (lo : ℕ) : GoodB [] lo lo := by
  refine ⟨fun a => ?_, List.Pairwise.nil, by simp⟩
  simp

theorem GoodB_append {l1 l2 : List (ℕ × ℕ)} {lo mid hi : ℕ}
    (h1 : GoodB l1 lo mid) (h2 : GoodB l2 mid hi)
    (hlm : lo ≤ mid) (hmh : mid ≤ hi) : GoodB (l1 ++ l2) lo hi := by
  obtain ⟨c1, d1, w1⟩ := h1
  obtain ⟨c2, d2, w2⟩ := h2
  refine ⟨fun a => ?_, ?_, ?_⟩
  · constructor
    · rintro ⟨bp, hbp, hin⟩
      rcases List.mem_append.mp hbp with h | h
      · have := (c1 a).mp ⟨bp, h, hin⟩; omega
      · have := (c2 a).mp ⟨bp, h, hin⟩; omega
    · intro ha
      by_cases hm : a < mid
      · obtain ⟨bp, hbp, hin⟩ := (c1 a).mpr ⟨ha.1, hm⟩
        exact ⟨bp, List.mem_append.mpr (Or.inl hbp), hin⟩
      · obtain ⟨bp, hbp, hin⟩ := (c2 a).mpr ⟨by omega, ha.2⟩
        exact ⟨bp, List.mem_append.mpr (Or.inr hbp), hin⟩
  · refine List.pairwise_append.mpr ⟨d1, d2, ?_⟩
    intro x hx y hy a hxa hya
    have hlt := (c1 a).mp ⟨x, hx, hxa⟩
    have hge := (c2 a).mp ⟨y, hy, hya⟩
    omega
  · intro bp hbp
    rcases List.mem_append.mp hbp with h | h
    · exact w1 bp h
    · exact w2 bp h

theorem segsInt_good : ∀ (n i b : ℕ), 1 ≤ i → i ≤ 32 → 2 ^ (32 - i) ∣ b →
    GoodB (segsInt i (2 ^ (32 - i)) b n) b (b + n * 2 ^ (32 - i)) := by
  intro n
  induction n with
  | zero => intro i b _ _ _; simpa using GoodB_nil b
  | succ n ih =>
    intro i b h1 h32 hdvd
    have hz : 0 < 2 ^ (32 - i) := pow_pos (by norm_num) _
    have hhead : GoodB [(b, i)] b (b + 2 ^ (32 - i)) := by
      refine ⟨fun a => ?_, List.pairwise_singleton _ _, ?_⟩
      · simp [inBlock]
      · intro bp hbp
        simp at hbp
        subst hbp
        exact ⟨h1, h32, hdvd⟩
    have htail := ih i (b + 2 ^ (32 - i)) h1 h32 (dvd_add hdvd dvd_rfl)
    have : segsInt i (2 ^ (32 - i)) b (n + 1) =
        [(b, i)] ++ segsInt i (2 ^ (32 - i)) (b + 2 ^ (32 - i)) n := by
      simp [segsInt]
    rw [this]
    have hgoal := GoodB_append hhead htail (by omega) (by omega)
    have heq : b + 2 ^ (32 - i) + n * 2 ^ (32 - i) = b + (n + 1) * 2 ^ (32 - i) := by ring
    rwa [heq] at hgoal

theorem msLoopInt_nil : ∀ (k i s e : ℕ), 33 - i ≤ k → e < s → msLoopInt i s e = [] := by
  intro k
  induction k with
  | zero =>
    intro i s e hk _
    rw [msLoopInt]
    rw [dif_pos (by omega : 32 < i)]
  | succ k ih =>
    intro i s e hk hes
    by_cases hi : 32 < i
    · rw [msLoopInt, dif_pos hi]
    · have hz : 0 < 2 ^ (32 - i) := pow_pos (by norm_num) _
      have h1 := blockLo_ge s (2 ^ (32 - i)) hz
      have h2 := blockHi1_le e (2 ^ (32 - i))
      rw [msLoopInt, dif_neg hi, dif_neg (by omega : ¬ blockLo (2 ^ (32 - i)) s < blockHi1 (2 ^ (32 - i)) e)]
      exact ih (i + 1) s e (by omega) hes


theorem msLoopInt_good :
    ∀ n k i s e : ℕ, e + 1 - s ≤ n → 1 ≤ i → i ≤ 32 → 33 - i ≤ k → s ≤ e →
      GoodB (msLoopInt i s e) s (e + 1) := by
  intro n
  induction n using Nat.strong_induction_on with
  | _ n IHn =>
    intro k
    induction k with
    | zero => intro i s e _ _ h32 hk _; omega
    | succ k IHk =>
      intro i s e hn h1i h32 hk hse
      have hz : 0 < 2 ^ (32 - i) := pow_pos (by norm_num) _
      have hbl := blockLo_ge s (2 ^ (32 - i)) hz
      have hbh := blockHi1_le e (2 ^ (32 - i))
      rw [msLoopInt, dif_neg (by omega : ¬ 32 < i)]
      by_cases hfit : blockLo (2 ^ (32 - i)) s < blockHi1 (2 ^ (32 - i)) e
      · rw [dif_pos hfit]
        set z := 2 ^ (32 - i) with hzdef
        set bl := blockLo z s with hbldef
        set bh := blockHi1 z e with hbhdef
        have hble : bl ≤ e := by omega
        have hdl : z ∣ bl := dvd_blockLo s z
        have hdh : z ∣ bh := dvd_blockHi1 e z
        have hdiff : z ∣ (bh - bl) := Nat.dvd_sub' hdh hdl
        have hseg_end : bl + (bh - bl) / z * z = bh := by
          rw [Nat.div_mul_cancel hdiff]; omega
        have hsegsG : GoodB (segsInt i z bl ((bh - bl) / z)) bl bh := by
          have h := segsInt_good ((bh - bl) / z) i bl h1i h32 hdl
          rwa [hseg_end] at h
        have htail : msLoopInt (i + 1) bh (bh - 1) = [] :=
          msLoopInt_nil 33 (i + 1) bh (bh - 1) (by omega) (by omega)
        have htailG : GoodB (msLoopInt (i + 1) bh (bh - 1)) (e + 1) (e + 1) := by
          rw [htail]; exact GoodB_nil _
        have hleftG : GoodB (if _h : s < bl then mkRangeInt s (bl - 1) else []) s bl := by
          by_cases hlt : s < bl
          · rw [dif_pos hlt, mkRangeInt]
            have hres := IHn (bl - s) (by omega) 32 1 s (bl - 1)
              (by omega) (by omega) (by omega) (by omega) (by omega)
            have heq : bl - 1 + 1 = bl := by omega
            rwa [heq] at hres
          · rw [dif_neg hlt]
            have heq : s = bl := by omega
            rw [heq]
            exact GoodB_nil _
        have hrightG : GoodB (if _h : bh ≤ e then mkRangeInt bh e else []) bh (e + 1) := by
          by_cases hre : bh ≤ e
          · rw [dif_pos hre, mkRangeInt]
            exact IHn (e + 1 - bh) (by omega) 32 1 bh e
              (by omega) (by omega) (by omega) (by omega) hre
          · rw [dif_neg hre]
            have heq : bh = e + 1 := by omega
            rw [heq]
            exact GoodB_nil _
        exact GoodB_append (GoodB_append (GoodB_append hleftG hsegsG (by omega) (by omega))
          hrightG (by omega) (by omega)) htailG (by omega) (by omega)
      · rw [dif_neg hfit]
        by_cases h32' : i = 32
        · exfalso
          apply hfit
          subst h32'
          simp only [blockLo, blockHi1]
          norm_num
          omega
        · exact IHk (i + 1) s e hn (by omega) (by omega) (by omega) hse

theorem mkRangeInt_good (s e : ℕ) (hse : s ≤ e) : GoodB (mkRangeInt s e) s (e + 1) := by
  rw [mkRangeInt]
  exact msLoopInt_good (e + 1 - s) 33 1 s e (le_refl _) (by omega) (by omega) (by omega) hse



theorem mkRangeInt_length_bounds (s e : ℕ) (hse : s ≤ e) :
    1 ≤ (mkRangeInt s e).length ∧ (mkRangeInt s e).length ≤ e + 1 - s := by
  obtain ⟨hcov, hdis, hwf⟩ := mkRangeInt_good s e hse
  constructor
  · obtain ⟨bp, hbp, _⟩ := (hcov s).mpr ⟨le_refl _, by omega⟩
    exact List.length_pos.mpr (List.ne_nil_of_mem hbp)
  · have hbase : ∀ x ∈ (mkRangeInt s e).map Prod.fst, x ∈ Finset.Ico s (e + 1) := by
      intro x hx
      obtain ⟨bp, hbp, hfst⟩ := List.mem_map.mp hx
      have hin : inBlock bp bp.1 := ⟨le_refl _, by have := pow_pos (by norm_num : (0:ℕ) < 2) (32 - bp.2); omega⟩
      have := (hcov bp.1).mp ⟨bp, hbp, hin⟩
      rw [Finset.mem_Ico]
      omega
    have hnd : ((mkRangeInt s e).map Prod.fst).Nodup := by
      refine List.Pairwise.map Prod.fst (fun x y hxy => ?_) hdis
      intro hfeq
      have hinx : inBlock x x.1 := ⟨le_refl _, by have := pow_pos (by norm_num : (0:ℕ) < 2) (32 - x.2); omega⟩
      have hiny : inBlock y x.1 := by
        refine ⟨le_of_eq hfeq.symm, ?_⟩
        have := pow_pos (by norm_num : (0:ℕ) < 2) (32 - y.2)
        omega
      exact hxy x.1 hinx hiny
    have hsub : ((mkRangeInt s e).map Prod.fst).toFinset ⊆ Finset.Ico s (e + 1) := by
      intro x hx
      exact hbase x (List.mem_toFinset.mp hx)
    have hcard := Finset.card_le_card hsub
    rw [List.toFinset_card_of_nodup hnd, Nat.card_Ico] at hcard
    have hlen : ((mkRangeInt s e).map Prod.fst).length = (mkRangeInt s e).length :=
      List.length_map _ _
    omega

/-- Claim C5: for all `s ≤ e` within the 32-bit address space, the CIDR
blocks emitted by `makeIPv4SubnetFromRange` (given by `mkRangeInt`, whose
formatted image the string output is) are well-formed, pairwise disjoint as
address sets, and their union is exactly the integer interval
`{s, s+1, ..., e}`. -/
theorem claim_C5 (s e : ℕ) (h1 : s ≤ e) (h2 : e ≤ 2 ^ 32 - 1) :
    makeIPv4SubnetFromRange s e =
      (mkRangeInt s e).map (fun bp => toIPv4AddrString bp.1 ++ "/" ++ Nat.repr bp.2) ∧
    blocksDisjoint (mkRangeInt s e) ∧
    (∀ bp ∈ mkRangeInt s e, wellFormedBlock bp) ∧
    ∀ a, (∃ bp ∈ mkRangeInt s e, inBlock bp a) ↔ (s ≤ a ∧ a ≤ e) := by
  obtain ⟨hcov, hdis, hwf⟩ := mkRangeInt_good s e h1
  refine ⟨rfl, hdis, hwf, fun a => ?_⟩
  have hc := hcov a
  rw [hc]
  omega

/-- Claim C5, witness at the README example range
`192.168.0.1 - 192.168.0.100`. -/
theorem claim_C5_witness :
    blocksDisjoint (mkRangeInt 3232235521 3232261220) ∧
    ∀ a, (∃ bp ∈ mkRangeInt 3232235521 3232261220, inBlock bp a) ↔
      (3232235521 ≤ a ∧ a ≤ 3232261220) :=
  ⟨(claim_C5 3232235521 3232261220 (by norm_num) (by norm_num)).2.1,
   (claim_C5 3232235521 3232261220 (by norm_num) (by norm_num)).2.2.2⟩

/-- Claim C10: `makeIPv4SubnetFromRange` terminates for every
`0 ≤ s ≤ e ≤ 2^32 - 1`: the embedding is admitted by well-founded
recursion on the size of the current subrange (each recursive call of
`msLoopInt`/`mkRangeInt` operates on a strictly smaller subrange of
`[s, e]`, the measure used in their `termination_by` clauses), and the
same induction bounds the finite output: at least one block and at most
one block per address of the range. -/
theorem claim_C10 (s e : ℕ) (h1 : s ≤ e) (h2 : e ≤ 2 ^ 32 - 1) :
    1 ≤ (makeIPv4SubnetFromRange s e).length ∧
    (makeIPv4SubnetFromRange s e).length ≤ e + 1 - s := by
  obtain ⟨hlo, hhi⟩ := mkRangeInt_length_bounds s e h1
  have hlen : (makeIPv4SubnetFromRange s e).length = (mkRangeInt s e).length :=
    List.length_map _ _
  omega

/-- Claim C10, witness at the single-host range `192.168.0.1`. -/
theorem claim_C10_witness :
    1 ≤ (makeIPv4SubnetFromRange 3232235521 3232235521).length ∧
    (makeIPv4SubnetFromRange 3232235521 3232235521).length ≤ 3232235521 + 1 - 3232235521 :=
  claim_C10 3232235521 3232235521 (by norm_num) (by norm_num)



/-! ## IPv4 netmask and containment predicates at the value level

Source: `getOctetNetMaskFromOctetPrefixLength`, `getIPv4NetMaskFromPrefixLength`,
`getPrefixLengthFromIPv4NetMask`, the bitwise helpers (lines 1468-1644,
2044-2146) and the containment predicates
`isIPv4WithPrefixLengthIncludedInSegment` (lines 2319-2348) and
`isIPv4WithPrefixLengthIncludedInFortinetWildcardAddr` (lines 2651-2688).
The string functions split their dotted-quad arguments into octets, operate
octet-wise, and join; since the dotted-quad rendering of four octets is a
bijection onto 32-bit values and octet-wise AND/OR/XOR equals the 32-bit
AND/OR/XOR, these embeddings carry the same functions on the 32-bit values
(`Val` suffix). -/

/-- Source `getOctetNetMaskFromOctetPrefixLength`: netmask of one octet. -/
def getOctetNetMaskFromOctetPrefixLength (n : ℕ) : ℕ := 256 - 2 ^ (8 - n)

/-- Source `getIPv4NetMaskFromPrefixLength`, assembled as a 32-bit value. -/
def getIPv4NetMaskFromPrefixLength (p : ℕ) : ℕ :=
  if p < 8 then getOctetNetMaskFromOctetPrefixLength p * 2 ^ 24
  else if p < 16 then 255 * 2 ^ 24 + getOctetNetMaskFromOctetPrefixLength (p - 8) * 2 ^ 16
  else if p < 24 then 255 * 2 ^ 24 + 255 * 2 ^ 16 + getOctetNetMaskFromOctetPrefixLength (p - 16) * 2 ^ 8
  else 255 * 2 ^ 24 + 255 * 2 ^ 16 + 255 * 2 ^ 8 + getOctetNetMaskFromOctetPrefixLength (p - 24)

/-- Inner loop of `getPrefixLengthFromIPv4NetMask`: greedy binary expansion
of one octet, counting the 1-bits; `break`s (stops counting this octet)
when the remaining mask is zero. -/
def onesLoop : List ℕ → ℕ → ℕ → ℕ
  | [], _, acc => acc
  | j :: js, m, acc =>
    if 2 ^ j ≤ m then onesLoop js (m - 2 ^ j) (acc + 1)
    else if m = 0 then acc
    else onesLoop js m acc

/-- Source `getPrefixLengthFromIPv4NetMask`: count the 1-bits of the mask,
octet by octet. -/
def getPrefixLengthFromIPv4NetMask (mask : ℕ) : ℕ :=
  onesLoop [7, 6, 5, 4, 3, 2, 1, 0] (mask % 256)
    (onesLoop [7, 6, 5, 4, 3, 2, 1, 0] (mask / 2 ^ 8 % 256)
      (onesLoop [7, 6, 5, 4, 3, 2, 1, 0] (mask / 2 ^ 16 % 256)
        (onesLoop [7, 6, 5, 4, 3, 2, 1, 0] (mask / 2 ^ 24 % 256) 0)))

/-- Source `getBitwiseANDedIPv4Addr` on 32-bit values. -/
def getBitwiseANDedIPv4AddrVal (a b : ℕ) : ℕ := a &&& b

/-- Source `getBitwiseORedIPv4Addr` on 32-bit values. -/
def getBitwiseORedIPv4AddrVal (a b : ℕ) : ℕ := a ||| b

/-- Source `getBitwiseANDedIPv4AddrWithInvertBits` on 32-bit values (the
octet-wise `^ 0xFF` is the 32-bit XOR with `2^32 - 1`). -/
def getBitwiseANDedIPv4AddrWithInvertBitsVal (a b : ℕ) : ℕ := a &&& (b ^^^ (2 ^ 32 - 1))

/-- Source `getBitwiseORedIPv4AddrWithInvertBits` on 32-bit values. -/
def getBitwiseORedIPv4AddrWithInvertBitsVal (a b : ℕ) : ℕ := a ||| (b ^^^ (2 ^ 32 - 1))

/-- Source `getIPv4StartAddr` (network address) on 32-bit values. -/
def getIPv4StartAddrVal (a m : ℕ) : ℕ := getBitwiseANDedIPv4AddrVal a m

/-- Source `getIPv4EndAddr` (broadcast address) on 32-bit values. -/
def getIPv4EndAddrVal (a m : ℕ) : ℕ := getBitwiseORedIPv4AddrWithInvertBitsVal a m

/-- Source `isIPv4WithPrefixLengthIncludedInSegment` after parsing, on
32-bit values: `(ta, tp)` is the tested address with prefix length, and
`(sa, sp)` the segment. -/
def isIPv4WithPrefixLengthIncludedInSegmentVal (ta tp sa sp : ℕ) : Bool :=
  if getIPv4StartAddrVal ta (getIPv4NetMaskFromPrefixLength tp) ≠ ta then
    -- test address has host bits: behave as a /32 host
    if 32 = sp then
      decide (ta = getIPv4StartAddrVal sa (getIPv4NetMaskFromPrefixLength sp))
    else if sp < 32 then
      decide (getIPv4StartAddrVal ta (getIPv4NetMaskFromPrefixLength sp) =
        getIPv4StartAddrVal sa (getIPv4NetMaskFromPrefixLength sp))
    else false
  else
    if tp = sp then
      decide (getIPv4StartAddrVal ta (getIPv4NetMaskFromPrefixLength tp) =
        getIPv4StartAddrVal sa (getIPv4NetMaskFromPrefixLength sp))
    else if sp < tp then
      decide (getIPv4StartAddrVal ta (getIPv4NetMaskFromPrefixLength sp) =
        getIPv4StartAddrVal sa (getIPv4NetMaskFromPrefixLength sp))
    else false

/-- Source `isIPv4WithPrefixLengthIncludedInFortinetWildcardAddr` after
parsing, on 32-bit values: `(ta, tp)` is the tested address with prefix
length, and `wa/wm` the stored wildcard base and match mask. -/
def isIPv4WithPrefixLengthIncludedInFortinetWildcardAddrVal (ta tp wa wm : ℕ) : Bool :=
  if tp = 32 ∨ getIPv4StartAddrVal ta (getIPv4NetMaskFromPrefixLength tp) ≠ ta then
    decide (getBitwiseANDedIPv4AddrVal ta wm = getBitwiseANDedIPv4AddrVal wa wm ∧
      getBitwiseORedIPv4AddrWithInvertBitsVal ta wm = getBitwiseORedIPv4AddrWithInvertBitsVal wa wm)
  else
    decide (getBitwiseANDedIPv4AddrVal (getIPv4StartAddrVal ta (getIPv4NetMaskFromPrefixLength tp)) wm =
        getBitwiseANDedIPv4AddrVal wa wm ∧
      getBitwiseORedIPv4AddrWithInvertBitsVal (getIPv4StartAddrVal ta (getIPv4NetMaskFromPrefixLength tp)) wm =
        getBitwiseORedIPv4AddrWithInvertBitsVal wa wm ∧
      getBitwiseANDedIPv4AddrVal (getIPv4EndAddrVal ta (getIPv4NetMaskFromPrefixLength tp)) wm =
        getBitwiseANDedIPv4AddrVal wa wm ∧
      getBitwiseORedIPv4AddrWithInvertBitsVal (getIPv4EndAddrVal ta (getIPv4NetMaskFromPrefixLength tp)) wm =
        getBitwiseORedIPv4AddrWithInvertBitsVal wa wm)

theorem netmask_val : ∀ p : ℕ, p ≤ 32 →
    getIPv4NetMaskFromPrefixLength p = 2 ^ 32 - 2 ^ (32 - p) := by decide

theorem prefixLen_netmask : ∀ p : ℕ, p ≤ 32 →
    getPrefixLengthFromIPv4NetMask (getIPv4NetMaskFromPrefixLength p) = p := by decide

theorem mask_as_shl (k : ℕ) (hk : k ≤ 32) :
    2 ^ 32 - 2 ^ k = (2 ^ (32 - k) - 1) <<< k := by
  rw [Nat.shiftLeft_eq, Nat.sub_mul, ← pow_add, one_mul]
  congr 2
  omega

theorem and_mask_eq (x k : ℕ) (hx : x < 2 ^ 32) (hk : k ≤ 32) :
    x &&& (2 ^ 32 - 2 ^ k) = (x >>> k) <<< k := by
  apply Nat.eq_of_testBit_eq
  intro i
  rw [Nat.testBit_land, mask_as_shl k hk, Nat.testBit_shiftLeft, Nat.testBit_shiftLeft,
    Nat.testBit_shiftRight, Nat.testBit_two_pow_sub_one]
  by_cases h1 : k ≤ i
  · have hki : k + (i - k) = i := by omega
    rw [hki]
    by_cases h2 : i < 32
    · simp [h1, show i - k < 32 - k by omega]
    · have hxi : x.testBit i = false :=
        Nat.testBit_lt_two_pow (lt_of_lt_of_le hx (pow_le_pow_right₀ (by norm_num) (by omega)))
      simp [h1, hxi, show ¬ (i - k < 32 - k) by omega]
  · simp [h1]

theorem mask_compl (k : ℕ) (hk : k ≤ 32) :
    (2 ^ 32 - 2 ^ k) ^^^ (2 ^ 32 - 1) = 2 ^ k - 1 := by
  apply Nat.eq_of_testBit_eq
  intro i
  rw [Nat.testBit_xor, mask_as_shl k hk, Nat.testBit_shiftLeft,
    Nat.testBit_two_pow_sub_one, Nat.testBit_two_pow_sub_one, Nat.testBit_two_pow_sub_one]
  by_cases h1 : k ≤ i
  · by_cases h2 : i < 32
    · simp [h1, show i - k < 32 - k by omega, h2]
    · simp [h1, show ¬ (i - k < 32 - k) by omega, h2, show ¬ i < k by omega]
  · simp [h1, show i < 32 by omega, show i < k by omega]

theorem shl_cancel_iff (a b k : ℕ) : a <<< k = b <<< k ↔ a = b := by
  rw [Nat.shiftLeft_eq, Nat.shiftLeft_eq]
  constructor
  · intro h
    exact Nat.eq_of_mul_eq_mul_right (pow_pos (by norm_num) _) h
  · intro h
    rw [h]

theorem and_mask_iff (x y k : ℕ) (hx : x < 2 ^ 32) (hy : y < 2 ^ 32) (hk : k ≤ 32) :
    (x &&& (2 ^ 32 - 2 ^ k) = y &&& (2 ^ 32 - 2 ^ k)) ↔ x >>> k = y >>> k := by
  rw [and_mask_eq x k hx hk, and_mask_eq y k hy hk, shl_cancel_iff]

theorem or_low_shr (x k K : ℕ) (hkK : k ≤ K) :
    (x ||| (2 ^ k - 1)) >>> K = x >>> K := by
  apply Nat.eq_of_testBit_eq
  intro i
  rw [Nat.testBit_shiftRight, Nat.testBit_shiftRight, Nat.testBit_lor,
    Nat.testBit_two_pow_sub_one]
  simp [show ¬ (K + i < k) by omega]

theorem or_low_iff (x y k : ℕ) :
    (x ||| (2 ^ k - 1)) = (y ||| (2 ^ k - 1)) ↔ x >>> k = y >>> k := by
  constructor
  · intro h
    have h2 := congrArg (fun v => v >>> k) h
    simpa [or_low_shr x k k (le_refl k), or_low_shr y k k (le_refl k)] using h2
  · intro h
    apply Nat.eq_of_testBit_eq
    intro i
    rw [Nat.testBit_lor, Nat.testBit_lor, Nat.testBit_two_pow_sub_one]
    by_cases hik : i < k
    · simp [hik]
    · have hx : x.testBit i = (x >>> k).testBit (i - k) := by
        rw [Nat.testBit_shiftRight]
        congr 1
        omega
      have hy : y.testBit i = (y >>> k).testBit (i - k) := by
        rw [Nat.testBit_shiftRight]
        congr 1
        omega
      simp [hik, hx, hy, h]

theorem aligned_low_testBit (x k K : ℕ) (hal : (x >>> k) <<< k = x) (hKk : K < k) :
    x.testBit K = false := by
  rw [← hal, Nat.testBit_shiftLeft]
  simp [show ¬ k ≤ K by omega]

theorem or_low_shr_ne (x k K : ℕ) (hal : (x >>> k) <<< k = x) (hKk : K < k) :
    (x ||| (2 ^ k - 1)) >>> K ≠ x >>> K := by
  intro h
  have h0 := congrArg (fun v => Nat.testBit v 0) h
  simp only [Nat.testBit_shiftRight, Nat.testBit_lor, Nat.testBit_two_pow_sub_one,
    Nat.add_zero] at h0
  rw [aligned_low_testBit x k K hal hKk] at h0
  simp [hKk] at h0

theorem lor_lt_32 (x y : ℕ) (hx : x < 2 ^ 32) (hy : y < 2 ^ 32) : x ||| y < 2 ^ 32 := by
  have := Nat.bitwise_lt_two_pow (n := 32) (f := or) hx hy
  simpa [Nat.lor] using this



theorem shl_shr_cancel (x K : ℕ) : (x <<< K) >>> K = x := by
  rw [Nat.shiftLeft_eq, Nat.shiftRight_eq_div_pow]
  exact Nat.mul_div_cancel x (pow_pos (by norm_num) _)

/-- Claim C6: for every left-contiguous-1s netmask (given by prefix length
`L` through `getIPv4NetMaskFromPrefixLength`, whose 1-bit count
`getPrefixLengthFromIPv4NetMask` recovers `L`), every base address `wa`,
and every test address/prefix `(ta, tp)`, the Fortinet-wildcard containment
predicate on the stored value `wa/M` decides exactly as the CIDR segment
containment predicate on `wa/L`. -/
theorem claim_C6 (wa ta tp L : ℕ) (hwa : wa < 2 ^ 32) (hta : ta < 2 ^ 32)
    (htp : tp ≤ 32) (hL : L ≤ 32) :
    getPrefixLengthFromIPv4NetMask (getIPv4NetMaskFromPrefixLength L) = L ∧
    isIPv4WithPrefixLengthIncludedInFortinetWildcardAddrVal ta tp wa
        (getIPv4NetMaskFromPrefixLength L) =
      isIPv4WithPrefixLengthIncludedInSegmentVal ta tp wa L := by
  refine ⟨prefixLen_netmask L hL, ?_⟩
  have hmt : getIPv4NetMaskFromPrefixLength tp = 2 ^ 32 - 2 ^ (32 - tp) := netmask_val tp htp
  have hmL : getIPv4NetMaskFromPrefixLength L = 2 ^ 32 - 2 ^ (32 - L) := netmask_val L hL
  unfold isIPv4WithPrefixLengthIncludedInFortinetWildcardAddrVal
    isIPv4WithPrefixLengthIncludedInSegmentVal getIPv4StartAddrVal getIPv4EndAddrVal
    getBitwiseANDedIPv4AddrVal getBitwiseORedIPv4AddrWithInvertBitsVal
  rw [hmt, hmL]
  obtain ⟨k, hk⟩ : ∃ x, 32 - tp = x := ⟨_, rfl⟩
  obtain ⟨K, hK⟩ : ∃ x, 32 - L = x := ⟨_, rfl⟩
  rw [hk, hK]
  have hkb : k ≤ 32 := by omega
  have hKb : K ≤ 32 := by omega
  have hcompl : (2 ^ 32 - 2 ^ K) ^^^ (2 ^ 32 - 1) = 2 ^ K - 1 := mask_compl K hKb
  have hcomplk : (2 ^ 32 - 2 ^ k) ^^^ (2 ^ 32 - 1) = 2 ^ k - 1 := mask_compl k hkb
  rw [hcompl, hcomplk]
  have hta_and : ta &&& (2 ^ 32 - 2 ^ k) = (ta >>> k) <<< k := and_mask_eq ta k hta hkb
  have hwaK : wa &&& (2 ^ 32 - 2 ^ K) = (wa >>> K) <<< K := and_mask_eq wa K hwa hKb
  have hA : ∀ x, x < 2 ^ 32 →
      ((x &&& (2 ^ 32 - 2 ^ K) = wa &&& (2 ^ 32 - 2 ^ K)) ↔ x >>> K = wa >>> K) :=
    fun x hx => and_mask_iff x wa K hx hwa hKb
  have hO : ∀ x, (x ||| (2 ^ K - 1) = wa ||| (2 ^ K - 1)) ↔ x >>> K = wa >>> K :=
    fun x => or_low_iff x wa K
  have hhost : ((ta &&& (2 ^ 32 - 2 ^ K) = wa &&& (2 ^ 32 - 2 ^ K)) ∧
      (ta ||| (2 ^ K - 1) = wa ||| (2 ^ K - 1))) ↔ (ta >>> K = wa >>> K) := by
    rw [hA ta hta, hO ta, and_self]
  have htb_lt : ta ||| (2 ^ k - 1) < 2 ^ 32 := by
    refine lor_lt_32 ta (2 ^ k - 1) hta ?_
    have : (2:ℕ) ^ k ≤ 2 ^ 32 := pow_le_pow_right₀ (by norm_num) hkb
    omega
  by_cases hal : ta &&& (2 ^ 32 - 2 ^ k) = ta
  · -- aligned test address (no host bits)
    by_cases h32 : tp = 32
    · -- prefix length 32: wildcard takes the host path
      rw [if_pos (Or.inl h32), if_neg (not_not_intro hal)]
      subst h32
      by_cases hL32 : (32:ℕ) = L
      · rw [if_pos hL32]
        have hK0 : K = 0 := by omega
        subst hK0
        rw [decide_eq_decide, hhost, hwaK]
        rw [Nat.shiftRight_zero, Nat.shiftRight_zero, Nat.shiftLeft_zero, hal]
      · rw [if_neg hL32, if_pos (by omega : L < 32)]
        rw [decide_eq_decide, hhost, hA ta hta]
    · -- tp < 32: wildcard takes the segment path
      rw [if_neg (fun hor => hor.elim h32 (fun hne => hne hal)),
        if_neg (not_not_intro hal)]
      simp only [hal]
      have hal' : (ta >>> k) <<< k = ta := by rw [← hta_and, hal]
      by_cases hLle : L ≤ tp
      · -- the tested prefix is at least as long as the mask prefix
        have hkK : k ≤ K := by omega
        have htbK : (ta ||| (2 ^ k - 1)) >>> K = ta >>> K := or_low_shr ta k K hkK
        have hwild : ((ta &&& (2 ^ 32 - 2 ^ K) = wa &&& (2 ^ 32 - 2 ^ K)) ∧
            (ta ||| (2 ^ K - 1) = wa ||| (2 ^ K - 1)) ∧
            ((ta ||| (2 ^ k - 1)) &&& (2 ^ 32 - 2 ^ K) = wa &&& (2 ^ 32 - 2 ^ K)) ∧
            ((ta ||| (2 ^ k - 1)) ||| (2 ^ K - 1) = wa ||| (2 ^ K - 1))) ↔
            (ta >>> K = wa >>> K) := by
          rw [hA ta hta, hO ta, hA _ htb_lt, hO _, htbK]
          exact ⟨fun h => h.1, fun h => ⟨h, h, h, h⟩⟩
        by_cases hLeq : tp = L
        · rw [if_pos hLeq]
          have hkKeq : k = K := by omega
          subst hkKeq
          rw [decide_eq_decide, hwild, hwaK]
          constructor
          · intro h
            rw [← h, hal']
          · intro h
            rw [h, shl_shr_cancel]
        · rw [if_neg hLeq, if_pos (by omega : L < tp)]
          rw [decide_eq_decide, hwild, hA ta hta]
      · -- tp < L: both sides false
        have hKk : K < k := by omega
        rw [if_neg (by omega : ¬ tp = L), if_neg (by omega : ¬ L < tp)]
        rw [decide_eq_false_iff_not]
        intro h
        obtain ⟨h1, _, h3, _⟩ := h
        rw [hA ta hta] at h1
        rw [hA _ htb_lt] at h3
        exact or_low_shr_ne ta k K hal' hKk (h3.trans h1.symm)
  · -- host bits set: both predicates behave as a /32 host
    rw [if_pos (Or.inr hal), if_pos hal]
    by_cases hL32 : (32:ℕ) = L
    · rw [if_pos hL32]
      have hK0 : K = 0 := by omega
      subst hK0
      rw [decide_eq_decide, hhost, hwaK]
      rw [Nat.shiftRight_zero, Nat.shiftRight_zero, Nat.shiftLeft_zero]
    · rw [if_neg hL32, if_pos (by omega : L < 32)]
      rw [decide_eq_decide, hhost, hA ta hta]


/-- Claim C6, witness at mask `255.255.255.0` (prefix length 24), base
`192.168.0.0`, test `192.168.0.1/32`. -/
theorem claim_C6_witness :
    getPrefixLengthFromIPv4NetMask (getIPv4NetMaskFromPrefixLength 24) = 24 ∧
    isIPv4WithPrefixLengthIncludedInFortinetWildcardAddrVal 3232235521 32 3232235520
        (getIPv4NetMaskFromPrefixLength 24) =
      isIPv4WithPrefixLengthIncludedInSegmentVal 3232235521 32 3232235520 24 :=
  claim_C6 3232235520 3232235521 32 24 (by norm_num) (by norm_num) (by norm_num) (by norm_num)



/-! ## Policy expansion

Source: `normalizeFirewallPolicy` (lines 3291-3378) and
`normalizeFirewallMulticastPolicy` (lines 3407-3486).  The raw `set` values
accumulated by the `ConfigEdit` handler are modelled as a record of strings
(empty string = the field was never set, as `begin()` initializes them);
the per-domain `service_custom`/`service_group` tables enter as association
lists from service name to the entry's `protocol_type` bit mask (the only
part of an entry these functions read). -/

/-- Raw parameter object of a `config firewall policy*` edit (the
`objParam` of `FirewallPolicy`). -/
structure PolicyParams where
  srcintf : String := ""
  dstintf : String := ""
  srcaddr : String := ""
  dstaddr : String := ""
  schedule : String := ""
  service : String := ""
  srcaddr_negate : String := ""
  dstaddr_negate : String := ""
  service_negate : String := ""
  name : String := ""
  action : String := ""
  status : String := ""
  comments : String := ""

/-- Raw parameter object of a `config firewall multicast-policy*` edit. -/
structure McastPolicyParams where
  srcintf : String := ""
  dstintf : String := ""
  srcaddr : String := ""
  dstaddr : String := ""
  protocol : String := ""
  action : String := ""
  status : String := ""
  start_port : String := ""
  end_port : String := ""

/-- Member-list tokenization used throughout the expander: nothing for an
empty field, otherwise strip the outer quotes and split on the literal
`" "` separator. -/
def fortiListTokens (s : String) : List String :=
  if s = "" then [] else jsSplit (trimStringJS s "\"") "\" \""

/-- JavaScript object property lookup on a name-to-protocol-bits table. -/
def assocFind (tbl : List (String × ℕ)) (key : String) : Option ℕ :=
  match tbl with
  | [] => none
  | (k, v) :: rest => if k = key then some v else assocFind rest key

/-- Port and type-code columns for one service name, given the
protocol-class bits of its table entry (the body of the innermost loop of
`normalizeFirewallPolicy`). -/
def serviceColumns (sv : String) (entry : Option ℕ) : String × String :=
  match entry with
  | some bits =>
    ((if bits &&& (PROTOCOL_TYPE_BIT_TCP_UDP_SCTP ||| PROTOCOL_TYPE_BIT_UNSUPPORTED) ≠ 0
      then sv else "-/-"),
     (if bits &&& (PROTOCOL_TYPE_BIT_ICMP_ICMP6 ||| PROTOCOL_TYPE_BIT_UNSUPPORTED) ≠ 0
      then sv else "-/-"))
  | none => (sv, sv)

/-- Embedding of `normalizeFirewallPolicy`: one CSV row per element of the
five-fold Cartesian product, in loop order. -/
def normalizeFirewallPolicy (strDomainName strPolicyType strPolicyID : String)
    (intOrderNumber : ℕ) (objParam : PolicyParams)
    (serviceCustom serviceGroup : List (String × ℕ)) : List String :=
  let strName := trimStringJS (trimStringJS objParam.name "\"") "'"
  let strStatus := if objParam.status = "" then "enable" else objParam.status
  let strAction := if objParam.action = "" then "deny" else objParam.action
  let strSchedule := trimStringJS (trimStringJS objParam.schedule "\"") "'"
  let strComments := trimStringJS (trimStringJS objParam.comments "\"") "'"
  (fortiListTokens objParam.srcintf).flatMap fun si =>
    (fortiListTokens objParam.dstintf).flatMap fun di =>
      (fortiListTokens objParam.srcaddr).flatMap fun sa =>
        (fortiListTokens objParam.dstaddr).flatMap fun da =>
          (fortiListTokens objParam.service).map fun sv =>
            let cols :=
              match assocFind serviceCustom sv with
              | some bits => serviceColumns sv (some bits)
              | none => serviceColumns sv (assocFind serviceGroup sv)
            let strServiceDstAddr := if cols.1 = "-/-" then "-" else cols.1
            strDomainName ++ "," ++ si ++ "," ++ di ++ "," ++ strPolicyType ++ "," ++
              strPolicyID ++ "," ++ strName ++ "," ++ Nat.repr intOrderNumber ++ "," ++
              strAction ++ "," ++ sv ++ "," ++ sa ++ "," ++ cols.1 ++ "," ++ da ++ "," ++
              cols.1 ++ "," ++ strServiceDstAddr ++ "," ++ cols.2 ++ "," ++
              objParam.srcaddr_negate ++ "," ++ objParam.dstaddr_negate ++ "," ++
              objParam.service_negate ++ "," ++ strStatus ++ ",-," ++ strSchedule ++ "," ++
              strComments

/-- Embedding of `normalizeFirewallMulticastPolicy`: one CSV row per
element of the four-fold Cartesian product, the protocol/port columns
computed once from the scalar protocol field. -/
def normalizeFirewallMulticastPolicy (strDomainName strPolicyType strPolicyID : String)
    (intOrderNumber : ℕ) (p : McastPolicyParams) : List String :=
  let strStatus := if p.status = "" then "enable" else p.status
  let strAction := if p.action = "" then "accept" else p.action
  let c :=
    if isIcmpProtocol p.protocol || isIcmp6Protocol p.protocol then
      (p.protocol, "-/-", "-/-", "any/any", "-")
    else if isTcpProtocol p.protocol || isUdpProtocol p.protocol || isSctpProtocol p.protocol then
      (p.protocol, "eq/any",
        (if p.start_port = "" then "eq/any"
         else if p.end_port = "" then "eq/" ++ p.start_port
         else "range/" ++ p.start_port ++ "-" ++ p.end_port),
        "-/-", "0/0")
    else if p.protocol = "" || p.protocol = "0" || isIpProtocol p.protocol then
      ("ip", "-/-", "-/-", "-/-", "-")
    else if jsIsIntegerNumberString p.protocol then
      (p.protocol, "-/-", "-/-", "-/-", "-")
    else
      (p.protocol, p.protocol, p.protocol, p.protocol, "-")
  (fortiListTokens p.srcintf).flatMap fun si =>
    (fortiListTokens p.dstintf).flatMap fun di =>
      (fortiListTokens p.srcaddr).flatMap fun sa =>
        (fortiListTokens p.dstaddr).map fun da =>
          strDomainName ++ "," ++ si ++ "," ++ di ++ "," ++ strPolicyType ++ "," ++
            strPolicyID ++ ",-," ++ Nat.repr intOrderNumber ++ "," ++ strAction ++ "," ++
            c.1 ++ "," ++ sa ++ "," ++ c.2.1 ++ "," ++ da ++ "," ++ c.2.2.1 ++ "," ++
            c.2.2.2.2 ++ "," ++ c.2.2.2.1 ++ ",-,-,-," ++ strStatus ++ ",-,-,-"

theorem bind_length_const {α β : Type} (l : List α) (f : α → List β) (c : ℕ)
    (h : ∀ a ∈ l, (f a).length = c) : (l.flatMap f).length = l.length * c := by
  induction l with
  | nil => simp
  | cons x xs ih =>
    rw [List.flatMap_cons, List.length_append, h x (by simp), ih (fun a ha => h a (by simp [ha]))]
    simp [List.length_cons]
    ring


/-- Tokenization exactly as worded by claim C7 (a spec-side model, to be
compared with `fortiListTokens`): split on the literal `" "` separator
after stripping the outer quotes, with no special case for an empty
field (JavaScript's `''.split(sep)` yields `['']`). -/
def claimC7Tokenization (s : String) : List String :=
  jsSplit (trimStringJS s "\"") "\" \""

/-- Failing parameter record for claim C7: a policy whose `service` field
was never set (so it is empty), all other member fields singletons. -/
def c7FailingParams : PolicyParams :=
  { srcintf := "\"i1\"", dstintf := "\"w1\"", srcaddr := "\"A1\"", dstaddr := "\"A2\"",
    service := "", schedule := "always", srcaddr_negate := "false",
    dstaddr_negate := "false", service_negate := "false" }

/-- Claim C7, counterexample: for a policy record whose `service` field is
empty (never set), `normalizeFirewallPolicy` returns no rows, while the
claim's tokenization recipe (split after stripping quotes) gives the empty
field one token, so the claimed product is 1, not 0. -/
theorem claim_C7_counterexample :
    (normalizeFirewallPolicy "" "4to4" "1" 1 c7FailingParams [] []).length ≠
      (claimC7Tokenization c7FailingParams.srcintf).length *
      (claimC7Tokenization c7FailingParams.dstintf).length *
      (claimC7Tokenization c7FailingParams.srcaddr).length *
      (claimC7Tokenization c7FailingParams.dstaddr).length *
      (claimC7Tokenization c7FailingParams.service).length := by
  decide

/-- Claim C7 (amended): the number of normalized rows equals
`|srcintf| * |dstintf| * |srcaddr| * |dstaddr| * |service|` (product of the
four interface/address list lengths for multicast policies), where each
field is tokenized on the literal quote-space-quote separator after
stripping the outer quotes, and an empty (never set) field yields no
tokens rather than one empty token. -/
theorem claim_C7_amended :
    (∀ dom pt pid n p sc sg, (normalizeFirewallPolicy dom pt pid n p sc sg).length =
      (fortiListTokens p.srcintf).length * (fortiListTokens p.dstintf).length *
      (fortiListTokens p.srcaddr).length * (fortiListTokens p.dstaddr).length *
      (fortiListTokens p.service).length) ∧
    (∀ dom pt pid n p, (normalizeFirewallMulticastPolicy dom pt pid n p).length =
      (fortiListTokens p.srcintf).length * (fortiListTokens p.dstintf).length *
      (fortiListTokens p.srcaddr).length * (fortiListTokens p.dstaddr).length) := by
  constructor
  · intro dom pt pid n p sc sg
    unfold normalizeFirewallPolicy
    rw [bind_length_const _ _ ((fortiListTokens p.dstintf).length *
      ((fortiListTokens p.srcaddr).length * ((fortiListTokens p.dstaddr).length *
        (fortiListTokens p.service).length)))]
    · ring
    · intro si _
      rw [bind_length_const _ _ ((fortiListTokens p.srcaddr).length *
        ((fortiListTokens p.dstaddr).length * (fortiListTokens p.service).length))]
      intro di _
      rw [bind_length_const _ _ ((fortiListTokens p.dstaddr).length *
        (fortiListTokens p.service).length)]
      intro sa _
      rw [bind_length_const _ _ (fortiListTokens p.service).length]
      intro da _
      exact List.length_map _ _
  · intro dom pt pid n p
    unfold normalizeFirewallMulticastPolicy
    rw [bind_length_const _ _ ((fortiListTokens p.dstintf).length *
      ((fortiListTokens p.srcaddr).length * (fortiListTokens p.dstaddr).length))]
    · ring
    · intro si _
      rw [bind_length_const _ _ ((fortiListTokens p.srcaddr).length *
        (fortiListTokens p.dstaddr).length)]
      intro di _
      rw [bind_length_const _ _ (fortiListTokens p.dstaddr).length]
      intro sa _
      exact List.length_map _ _



/-! ## Wildcard FQDN matching

Source: class `WildcardFQDN` (lines 143-183).  The source builds the regex
`'^' + pattern.replaceAll('.', '\\.').replaceAll('*', '[^\\.]*') + '$'` and
tests the query against it: every non-`*` pattern character matches itself
literally, each `*` matches a possibly empty run of non-dot characters, and
the match is anchored at both ends.  `wcMatchGo` is the standard
backtracking matcher for exactly that language (structural on a fuel that
starts at the total length, which each step decreases); `WMatches` is the
declarative reading, and the two are proved equivalent. -/

/-- Backtracking matcher for the wildcard-FQDN pattern language. -/
def wcMatchGo : ℕ → List Char → List Char → Bool
  | 0, ps, qs => ps.isEmpty && qs.isEmpty
  | fuel + 1, ps, qs =>
    match ps with
    | [] => qs.isEmpty
    | p :: ps' =>
      if p = '*' then
        wcMatchGo fuel ps' qs ||
          (match qs with
           | [] => false
           | q :: qs' => !(q = '.') && wcMatchGo fuel (p :: ps') qs')
      else
        match qs with
        | [] => false
        | q :: qs' => p = q && wcMatchGo fuel ps' qs'

/-- Embedding of `WildcardFQDN.test` (via the constructed regex): does the
wildcard FQDN `pattern` match the whole string `query`. -/
def wcMatch (pattern query : String) : Bool :=
  wcMatchGo (pattern.data.length + query.data.length) pattern.data query.data

/-- Declarative semantics of the constructed regex
`'^' + escaped-pattern + '$'`: literal characters match themselves, `*`
matches a possibly empty run of non-dot characters, anchored over the
whole query. -/
inductive WMatches : List Char → List Char → Prop
  | nil : WMatches [] []
  | lit (c : Char) (ps qs : List Char) : c ≠ '*' → WMatches ps qs →
      WMatches (c :: ps) (c :: qs)
  | star (run ps qs : List Char) : (∀ c ∈ run, c ≠ '.') → WMatches ps qs →
      WMatches ('*' :: ps) (run ++ qs)

theorem wmatches_lit_inv {p : Char} {ps qs : List Char} (hp : p ≠ '*')
    (h : WMatches (p :: ps) qs) : ∃ qs', qs = p :: qs' ∧ WMatches ps qs' := by
  generalize hP : (p :: ps) = P at h
  cases h with
  | nil => exact absurd hP (by simp)
  | lit c ps₂ qs₂ hne hm =>
    injection hP with h1 h2
    subst h1; subst h2
    exact ⟨qs₂, rfl, hm⟩
  | star run ps₂ qs₂ hrun hm =>
    injection hP with h1 h2
    exact absurd h1 hp

theorem wmatches_star_inv {ps qs : List Char} (h : WMatches ('*' :: ps) qs) :
    ∃ run qs₂, qs = run ++ qs₂ ∧ (∀ c ∈ run, c ≠ '.') ∧ WMatches ps qs₂ := by
  generalize hP : ('*' :: ps) = P at h
  cases h with
  | nil => exact absurd hP (by simp)
  | lit c ps₂ qs₂ hne hm =>
    injection hP with h1 h2
    exact absurd h1.symm hne
  | star run ps₂ qs₂ hrun hm =>
    injection hP with h1 h2
    subst h2
    exact ⟨run, qs₂, rfl, hrun, hm⟩

theorem wmatches_star_cons {ps qs : List Char} {q : Char} (hq : q ≠ '.')
    (h : WMatches ('*' :: ps) qs) : WMatches ('*' :: ps) (q :: qs) := by
  obtain ⟨run, qs₂, heq, hrun, hm⟩ := wmatches_star_inv h
  subst heq
  have := WMatches.star (q :: run) ps qs₂ (by
    intro c hc
    rcases List.mem_cons.mp hc with h | h
    · subst h; exact hq
    · exact hrun c h) hm
  simpa using this

theorem wcMatchGo_correct : ∀ fuel ps qs, ps.length + qs.length ≤ fuel →
    (wcMatchGo fuel ps qs = true ↔ WMatches ps qs) := by
  intro fuel
  induction fuel with
  | zero =>
    intro ps qs h
    have hps : ps = [] := List.eq_nil_of_length_eq_zero (by omega)
    have hqs : qs = [] := List.eq_nil_of_length_eq_zero (by omega)
    subst hps; subst hqs
    simp [wcMatchGo]
    exact WMatches.nil
  | succ fuel ih =>
    intro ps qs h
    cases ps with
    | nil =>
      simp only [wcMatchGo]
      constructor
      · intro hq
        have : qs = [] := by simpa [List.isEmpty_iff] using hq
        subst this
        exact WMatches.nil
      · intro hm
        cases hm
        simp
    | cons p ps' =>
      by_cases hstar : p = '*'
      · subst hstar
        simp only [wcMatchGo, if_pos rfl]
        constructor
        · intro hq
          rcases Bool.or_eq_true_iff.mp hq with h1 | h2
          · have hm := (ih ps' qs (by simp at h ⊢; omega)).mp h1
            have := WMatches.star [] ps' qs (by simp) hm
            simpa using this
          · cases qs with
            | nil => simp at h2
            | cons q qs' =>
              simp only [Bool.and_eq_true, Bool.not_eq_true'] at h2
              obtain ⟨hq1, hq2⟩ := h2
              have hm := (ih ('*' :: ps') qs' (by simp at h ⊢; omega)).mp hq2
              exact wmatches_star_cons (by simpa using hq1) hm
        · intro hm
          obtain ⟨run, qs₂, heq, hrun, hm₂⟩ := wmatches_star_inv hm
          subst heq
          cases run with
          | nil =>
            have hgo : wcMatchGo fuel ps' qs₂ = true :=
              (ih ps' qs₂ (by simp at h ⊢; omega)).mpr hm₂
            simp [hgo]
          | cons r run' =>
            have hm' : WMatches ('*' :: ps') (run' ++ qs₂) :=
              WMatches.star run' ps' qs₂ (fun c hc => hrun c (by simp [hc])) hm₂
            have hgo : wcMatchGo fuel ('*' :: ps') (run' ++ qs₂) = true := by
              refine (ih ('*' :: ps') (run' ++ qs₂) ?_).mpr hm'
              simp at h ⊢
              omega
            have hr : ¬ r = '.' := hrun r (by simp)
            simp [hgo, hr]
      · simp only [wcMatchGo, if_neg hstar]
        cases qs with
        | nil =>
          simp only [Bool.false_eq_true, false_iff]
          intro hm
          obtain ⟨qs', heq, _⟩ := wmatches_lit_inv hstar hm
          exact absurd heq (by simp)
        | cons q qs' =>
          simp only [Bool.and_eq_true, decide_eq_true_eq]
          constructor
          · rintro ⟨rfl, hq2⟩
            exact WMatches.lit p ps' qs' hstar ((ih ps' qs' (by simp at h ⊢; omega)).mp hq2)
          · intro hm
            obtain ⟨qs₂, heq, hm₂⟩ := wmatches_lit_inv hstar hm
            injection heq with h1 h2
            refine ⟨h1.symm, (ih ps' qs' (by simp at h ⊢; omega)).mpr ?_⟩
            rw [h2]
            exact hm₂

theorem wcMatch_correct (pattern query : String) :
    wcMatch pattern query = true ↔ WMatches pattern.data query.data :=
  wcMatchGo_correct _ _ _ (le_refl _)



/-! ## String-level IPv4/IPv6 helpers

Embeddings of the dotted-quad and hextet string functions used by the
lookup path.  Octets/hextets are parsed with `parseInt` (`Option Int`,
`none` = `NaN`); where the source stores them into typed arrays the
ToUint8/ToUint16 coercion applies, and formatting mirrors the source's
`toString`/zero-padding. -/

/-- Hexadecimal digit character (lowercase), as `Number.toString(16)`
produces. -/
def hexDigitCharOf (n : ℕ) : Char :=
  "0123456789abcdef".data.getD n '0'

/-- Zero-padded two-digit hexadecimal rendering of a byte, as the source's
`('0' + b.toString(16)).slice(-2)`. -/
def hexPadByte (n : ℕ) : String :=
  ⟨[hexDigitCharOf (n / 16 % 16), hexDigitCharOf (n % 16)]⟩

/-- Four-hex-digit rendering of a 16-bit value, as the source renders a
hextet byte by byte. -/
def fmtHextet (h : ℕ) : String :=
  hexPadByte (h / 256 % 256) ++ hexPadByte (h % 256)

/-- The 32-bit value of a dotted-quad string through Uint8 coercion of its
four `parseInt`-parsed octets (out-of-range and `NaN` behave as
ECMAScript's ToUint8). -/
def ipv4ValU8 (s : String) : ℕ :=
  let parts := jsSplit s "."
  toUint8 (jsParseInt (atIdx parts 0)) * 2 ^ 24 +
    toUint8 (jsParseInt (atIdx parts 1)) * 2 ^ 16 +
    toUint8 (jsParseInt (atIdx parts 2)) * 2 ^ 8 +
    toUint8 (jsParseInt (atIdx parts 3))

/-- Source `getBitwiseANDedIPv4Addr` (string level): parse octets, AND
octet-wise, join.  Octet-wise AND of the assembled 32-bit values equals
the 32-bit AND. -/
def getBitwiseANDedIPv4Addr (a b : String) : String :=
  toIPv4AddrString (getBitwiseANDedIPv4AddrVal (ipv4ValU8 a) (ipv4ValU8 b))

/-- Source `getBitwiseORedIPv4Addr` (string level). -/
def getBitwiseORedIPv4Addr (a b : String) : String :=
  toIPv4AddrString (getBitwiseORedIPv4AddrVal (ipv4ValU8 a) (ipv4ValU8 b))

/-- Source `getBitwiseANDedIPv4AddrWithInvertBits` (string level). -/
def getBitwiseANDedIPv4AddrWithInvertBits (a b : String) : String :=
  toIPv4AddrString (getBitwiseANDedIPv4AddrWithInvertBitsVal (ipv4ValU8 a) (ipv4ValU8 b))

/-- Source `getBitwiseORedIPv4AddrWithInvertBits` (string level). -/
def getBitwiseORedIPv4AddrWithInvertBits (a b : String) : String :=
  toIPv4AddrString (getBitwiseORedIPv4AddrWithInvertBitsVal (ipv4ValU8 a) (ipv4ValU8 b))

/-- Source `getIPv4StartAddr` (string level). -/
def getIPv4StartAddr (a m : String) : String := getBitwiseANDedIPv4Addr a m

/-- Source `getIPv4EndAddr` (string level). -/
def getIPv4EndAddr (a m : String) : String := getBitwiseORedIPv4AddrWithInvertBits a m

/-- One octet of a netmask: `256 - 2^(8-n)` through ToUint8, with `NaN`
becoming `0` (the source stores the expression into a `Uint8Array`); for
`n > 8` the JavaScript value truncates to `255`, as does this embedding. -/
def netMaskOctet (p : Option Int) : ℕ :=
  match p with
  | none => 0
  | some v => (((256 : Int) - 2 ^ ((8 : Int) - v).toNat) % 256).toNat

/-- Source `getIPv4NetMaskFromPrefixLength` applied to a `parseInt` result
(string level): `NaN` fails every branch comparison and lands in the last
branch with a `NaN` last octet, giving `255.255.255.0`. -/
def getIPv4NetMaskFromPrefixLengthStr (p : Option Int) : String :=
  if jsLt p (some 8) then
    toIPv4AddrString (netMaskOctet p * 2 ^ 24)
  else if jsLt p (some 16) then
    toIPv4AddrString (255 * 2 ^ 24 + netMaskOctet (p.map (· - 8)) * 2 ^ 16)
  else if jsLt p (some 24) then
    toIPv4AddrString (255 * 2 ^ 24 + 255 * 2 ^ 16 + netMaskOctet (p.map (· - 16)) * 2 ^ 8)
  else
    toIPv4AddrString (255 * 2 ^ 24 + 255 * 2 ^ 16 + 255 * 2 ^ 8 + netMaskOctet (p.map (· - 24)))

/-- Source `compareIPv4`: octet-wise ordered comparison on the raw
`parseInt` results (`NaN` compares false both ways, so mixed or malformed
octets fall through as equal). -/
def compareIPv4 (s1 s2 : String) : Int :=
  let o1 := fun i => jsParseInt (atIdx (jsSplit s1 ".") i)
  let o2 := fun i => jsParseInt (atIdx (jsSplit s2 ".") i)
  if jsGt (o1 0) (o2 0) then 1 else if jsLt (o1 0) (o2 0) then -1
  else if jsGt (o1 1) (o2 1) then 1 else if jsLt (o1 1) (o2 1) then -1
  else if jsGt (o1 2) (o2 2) then 1 else if jsLt (o1 2) (o2 2) then -1
  else if jsGt (o1 3) (o2 3) then 1 else if jsLt (o1 3) (o2 3) then -1
  else 0

/-- Source `isIPv4WithPrefixLengthIncludedInSegment` (string level). -/
def isIPv4WithPrefixLengthIncludedInSegment (t seg : String) : Bool :=
  let at_ := jsSplit t "/"
  let as_ := jsSplit seg "/"
  let strTestAddr := atIdx at_ 0
  let tpl0 := jsParseInt (atIdx at_ 1)
  let strTestNet0 := getIPv4StartAddr strTestAddr (getIPv4NetMaskFromPrefixLengthStr tpl0)
  let spl := jsParseInt (atIdx as_ 1)
  let strSegMask := getIPv4NetMaskFromPrefixLengthStr spl
  let strSegNet := getIPv4StartAddr (atIdx as_ 0) strSegMask
  -- if the test address has host bits set, behave as a /32 host
  let tpl := if strTestNet0 ≠ strTestAddr then some (32 : Int) else tpl0
  let strTestNet := if strTestNet0 ≠ strTestAddr then strTestAddr else strTestNet0
  if jsEqNum tpl spl then decide (strTestNet = strSegNet)
  else if jsGt tpl spl then decide (getIPv4StartAddr strTestAddr strSegMask = strSegNet)
  else false

/-- Source `isIPv4WithPrefixLengthIncludedInRange` (string level). -/
def isIPv4WithPrefixLengthIncludedInRange (t rng : String) : Bool :=
  let at_ := jsSplit t "/"
  let ar := jsSplit rng "-"
  let addr := atIdx at_ 0
  let mask := getIPv4NetMaskFromPrefixLengthStr (jsParseInt (atIdx at_ 1))
  let start0 := getIPv4StartAddr addr mask
  let end0 := getIPv4EndAddr addr mask
  -- a host address stands for itself at both ends
  let start := if addr ≠ start0 then addr else start0
  let endA := if addr ≠ start0 then addr else end0
  decide (0 ≤ compareIPv4 start (atIdx ar 0)) && decide (compareIPv4 endA (atIdx ar 1) ≤ 0)

/-- Source `isIPv4WithPrefixLengthIncludedInFortinetWildcardAddr` (string
level). -/
def isIPv4WithPrefixLengthIncludedInFortinetWildcardAddr (t w : String) : Bool :=
  let at_ := jsSplit t "/"
  let aw := jsSplit w "/"
  let taddr := atIdx at_ 0
  let tpl := jsParseInt (atIdx at_ 1)
  let tmask := getIPv4NetMaskFromPrefixLengthStr tpl
  let tnet := getIPv4StartAddr taddr tmask
  let waddr := atIdx aw 0
  let wmask := atIdx aw 1
  let w0 := getBitwiseANDedIPv4Addr waddr wmask
  let w1 := getBitwiseORedIPv4AddrWithInvertBits waddr wmask
  if jsEqNum tpl (some 32) || tnet ≠ taddr then
    decide (getBitwiseANDedIPv4Addr taddr wmask = w0) &&
      decide (getBitwiseORedIPv4AddrWithInvertBits taddr wmask = w1)
  else
    let tb := getIPv4EndAddr taddr tmask
    decide (getBitwiseANDedIPv4Addr tnet wmask = w0) &&
      decide (getBitwiseORedIPv4AddrWithInvertBits tnet wmask = w1) &&
      decide (getBitwiseANDedIPv4Addr tb wmask = w0) &&
      decide (getBitwiseORedIPv4AddrWithInvertBits tb wmask = w1)



/-- Join hextet strings with `:`. -/
def joinColon : List String → String
  | [] => ""
  | [x] => x
  | x :: rest => x ++ ":" ++ joinColon rest

/-- Source `compareIPv6`: hextet-wise ordered comparison on the raw
`parseInt(x, 16)` results. -/
def compareIPv6 (s1 s2 : String) : Int :=
  let o1 := fun i => jsParseIntHex (atIdx (jsSplit s1 ":") i)
  let o2 := fun i => jsParseIntHex (atIdx (jsSplit s2 ":") i)
  if jsGt (o1 0) (o2 0) then 1 else if jsLt (o1 0) (o2 0) then -1
  else if jsGt (o1 1) (o2 1) then 1 else if jsLt (o1 1) (o2 1) then -1
  else if jsGt (o1 2) (o2 2) then 1 else if jsLt (o1 2) (o2 2) then -1
  else if jsGt (o1 3) (o2 3) then 1 else if jsLt (o1 3) (o2 3) then -1
  else if jsGt (o1 4) (o2 4) then 1 else if jsLt (o1 4) (o2 4) then -1
  else if jsGt (o1 5) (o2 5) then 1 else if jsLt (o1 5) (o2 5) then -1
  else if jsGt (o1 6) (o2 6) then 1 else if jsLt (o1 6) (o2 6) then -1
  else if jsGt (o1 7) (o2 7) then 1 else if jsLt (o1 7) (o2 7) then -1
  else 0

/-- Source `getIPv6NetMaskFromPrefixLength` applied to a `parseInt` result:
`255` octets up to the prefix, a partial octet at the boundary, zeros
after; a `NaN` prefix leaves every octet zero. -/
def getIPv6NetMaskFromPrefixLength (p : Option Int) : String :=
  let octet : ℕ → ℕ := fun i =>
    match p with
    | none => 0
    | some v =>
      let idx := v.tdiv 8
      if (i : Int) ≤ idx - 1 then 255
      else if idx < 16 ∧ (i : Int) = idx then netMaskOctet (some (v - idx * 8))
      else 0
  hexPadByte (octet 0) ++ hexPadByte (octet 1) ++ ":" ++
    hexPadByte (octet 2) ++ hexPadByte (octet 3) ++ ":" ++
    hexPadByte (octet 4) ++ hexPadByte (octet 5) ++ ":" ++
    hexPadByte (octet 6) ++ hexPadByte (octet 7) ++ ":" ++
    hexPadByte (octet 8) ++ hexPadByte (octet 9) ++ ":" ++
    hexPadByte (octet 10) ++ hexPadByte (octet 11) ++ ":" ++
    hexPadByte (octet 12) ++ hexPadByte (octet 13) ++ ":" ++
    hexPadByte (octet 14) ++ hexPadByte (octet 15)

/-- Source `getIPv6StartAddr`: hextet-wise AND through Uint16, formatted
fully expanded. -/
def getIPv6StartAddr (addr mask : String) : String :=
  let a := fun i => toUint16 (jsParseIntHex (atIdx (jsSplit addr ":") i))
  let m := fun i => toUint16 (jsParseIntHex (atIdx (jsSplit mask ":") i))
  joinColon ((List.range 8).map fun i => fmtHextet (a i &&& m i))

/-- Source `getIPv6EndAddr`: hextet-wise OR with the inverted mask. -/
def getIPv6EndAddr (addr mask : String) : String :=
  let a := fun i => toUint16 (jsParseIntHex (atIdx (jsSplit addr ":") i))
  let m := fun i => toUint16 (jsParseIntHex (atIdx (jsSplit mask ":") i))
  joinColon ((List.range 8).map fun i => fmtHextet (a i ||| (m i ^^^ 0xFFFF)))

/-- Source `isIPv6WithPrefixLengthIncludedInSegment` (string level). -/
def isIPv6WithPrefixLengthIncludedInSegment (t seg : String) : Bool :=
  let at_ := jsSplit t "/"
  let as_ := jsSplit seg "/"
  let strTestAddr := atIdx at_ 0
  let tpl0 := jsParseInt (atIdx at_ 1)
  let strTestNet0 := getIPv6StartAddr strTestAddr (getIPv6NetMaskFromPrefixLength tpl0)
  let spl := jsParseInt (atIdx as_ 1)
  let strSegMask := getIPv6NetMaskFromPrefixLength spl
  let strSegNet := getIPv6StartAddr (atIdx as_ 0) strSegMask
  let tpl := if strTestNet0 ≠ strTestAddr then some (128 : Int) else tpl0
  let strTestNet := if strTestNet0 ≠ strTestAddr then strTestAddr else strTestNet0
  if jsEqNum tpl spl then decide (strTestNet = strSegNet)
  else if jsGt tpl spl then decide (getIPv6StartAddr strTestAddr strSegMask = strSegNet)
  else false

/-- Source `isIPv6WithPrefixLengthIncludedInRange` (string level). -/
def isIPv6WithPrefixLengthIncludedInRange (t rng : String) : Bool :=
  let at_ := jsSplit t "/"
  let ar := jsSplit rng "-"
  let addr := atIdx at_ 0
  let mask := getIPv6NetMaskFromPrefixLength (jsParseInt (atIdx at_ 1))
  let start0 := getIPv6StartAddr addr mask
  let end0 := getIPv6EndAddr addr mask
  let start := if addr ≠ start0 then addr else start0
  let endA := if addr ≠ start0 then addr else end0
  decide (0 ≤ compareIPv6 start (atIdx ar 0)) && decide (compareIPv6 endA (atIdx ar 1) ≤ 0)



/-- Per-hextet validation of `getHextetStrArray`'s first loop, in order:
`none` = a part longer than 4 characters (`undefined` in the source),
`some false` = an earlier invalid part (empty or non-hex), `some true` =
all parts valid. -/
def hextetScan : List String → Option Bool
  | [] => some true
  | p :: rest =>
    if 4 < p.data.length then none
    else if !p.data.isEmpty && p.data.all isHexDigitChar then hextetScan rest
    else some false

/-- Source `getHextetStrArray`: `none` models the `undefined` return, `some
[]` the invalid-input return, `some l` the array of zero-padded lowercase
hextet strings. -/
def getHextetStrArray (s : String) : Option (List String) :=
  let parts := jsSplit s ":"
  match hextetScan parts with
  | none => none
  | some false => some []
  | some true => some (parts.map fun p => fmtHextet (toUint16 (jsParseIntHex p)))

/-- Per-octet validation of `getHextetStrArrayFromOctetStr`'s first loop. -/
def octetScan : List String → Option Bool
  | [] => some true
  | p :: rest =>
    if 3 < p.data.length then none
    else if !p.data.isEmpty && p.data.all isDigitChar && decide (natOfDigits p.data ≤ 255) then
      octetScan rest
    else some false

/-- Pair up octet values two at a time into hextet strings (a trailing odd
octet is dropped, as the source's `i < length - 1` loop bound does). -/
def octetPairs : List ℕ → List String
  | a :: b :: rest => (hexPadByte a ++ hexPadByte b) :: octetPairs rest
  | _ => []

/-- Source `getHextetStrArrayFromOctetStr`: the IPv4 tail of an
IPv4-compatible/mapped address as hextet strings. -/
def getHextetStrArrayFromOctetStr (s : String) : Option (List String) :=
  let parts := jsSplit s "."
  match octetScan parts with
  | none => none
  | some false => some []
  | some true => some (octetPairs (parts.map fun p => toUint8 (jsParseInt p)))

/-- Position of the first occurrence of `"::"` in a character list. -/
def idxOfDblColon : List Char → Option ℕ
  | ':' :: ':' :: _ => some 0
  | _ :: rest => (idxOfDblColon rest).map (· + 1)
  | [] => none

/-- Position of the last `':'` in a character list, if any. -/
def lastIdxOfColon (cs : List Char) : Option ℕ :=
  (idxOfColonRev cs.reverse).map fun j => cs.length - 1 - j
where
  idxOfColonRev : List Char → Option ℕ
    | [] => none
    | ':' :: _ => some 0
    | _ :: rest => (idxOfColonRev rest).map (· + 1)

/-- Source `getIPv6HextetStrArray`: full eight-hextet expansion of an IPv6
address string (compressed `::` and IPv4-tail forms included); `[]` for
anything invalid. -/
def getIPv6HextetStrArray (s : String) : List String :=
  let cs := s.data
  let front? : Option (List String) :=
    match idxOfDblColon cs with
    | none => some []
    | some i => getHextetStrArray ⟨cs.take i⟩
  match front? with
  | none => []
  | some front =>
    let rear : List Char :=
      match idxOfDblColon cs with
      | none => cs
      | some i => cs.drop (i + 2)
    let hasPeriod := rear.any (fun c => c = '.')
    let rear? : Option (List String) :=
      if !hasPeriod then
        getHextetStrArray ⟨rear⟩
      else
        match lastIdxOfColon rear with
        | none => getHextetStrArrayFromOctetStr ⟨rear⟩
        | some j =>
          match getHextetStrArray ⟨rear.take j⟩ with
          | none => none
          | some endHex =>
            match getHextetStrArrayFromOctetStr ⟨rear.drop (j + 1)⟩ with
            | none => none
            | some ip4 => some (endHex ++ ip4)
    match rear? with
    | none => []
    | some rearArr =>
      if (idxOfDblColon cs = none ∧ rearArr.length = 8) ∨
         (idxOfDblColon cs ≠ none ∧ front.length + rearArr.length ≤ 7) then
        let full := front ++ List.replicate (8 - front.length - rearArr.length) "0000" ++ rearArr
        if hasPeriod then
          if jsEqNum (jsParseIntHex (atIdx full 0)) (some 0) &&
             jsEqNum (jsParseIntHex (atIdx full 1)) (some 0) &&
             jsEqNum (jsParseIntHex (atIdx full 2)) (some 0) &&
             jsEqNum (jsParseIntHex (atIdx full 3)) (some 0) &&
             jsEqNum (jsParseIntHex (atIdx full 4)) (some 0) &&
             (jsEqNum (jsParseIntHex (atIdx full 5)) (some 0) || atIdx full 5 = "ffff") then
            full
          else []
        else full
      else []

/-- Source `getIPv6FullRepresentedAddr`. -/
def getIPv6FullRepresentedAddr (s : String) : String :=
  joinColon (getIPv6HextetStrArray s)

/-- Source `getIPv6FullRepresentedAddrWithPrefixLength` (an absent prefix
field is modelled as the empty string; it is only ever consumed by
`parseInt`, where it behaves as JavaScript's `undefined` does). -/
def getIPv6FullRepresentedAddrWithPrefixLength (s : String) : String :=
  let parts := jsSplit s "/"
  let a := getIPv6FullRepresentedAddr (atIdx parts 0)
  if a = "" then "" else a ++ "/" ++ atIdx parts 1


/-- Lookup address type constants of the source. -/
def LOOKUP_ADDRESS_TYPE_UNKNOWN : ℕ := 0

/-- Lookup address type for an IPv4 query. -/
def LOOKUP_ADDRESS_TYPE_IPV4 : ℕ := 1

/-- Lookup address type for an IPv6 query. -/
def LOOKUP_ADDRESS_TYPE_IPV6 : ℕ := 2

/-- Lookup address type for an FQDN query. -/
def LOOKUP_ADDRESS_TYPE_FQDN : ℕ := 3

/-- Lookup address type for a geography query. -/
def LOOKUP_ADDRESS_TYPE_GEO : ℕ := 4

/-- Source `isWithin`: containment oracle between the stored address token of
a normalized row and the classified lookup query. -/
def isWithin (stored q : String) (ty : ℕ) (negate matchAll : Bool) : Bool :=
  if (ty = LOOKUP_ADDRESS_TYPE_IPV4 ∧ stored = "0.0.0.0/0") ∨
     (ty = LOOKUP_ADDRESS_TYPE_IPV6 ∧ stored = "0000:0000:0000:0000:0000:0000:0000:0000/0") then
    !negate
  else if ty = LOOKUP_ADDRESS_TYPE_GEO then
    if jsStartsWith stored "geo:" then Bool.xor negate (decide (q = (⟨stored.data.drop 4⟩ : String)))
    else Bool.xor negate matchAll
  else if ty = LOOKUP_ADDRESS_TYPE_FQDN then
    if jsStartsWith stored "fqdn:" then Bool.xor negate (wcMatch ⟨stored.data.drop 5⟩ q)
    else Bool.xor negate matchAll
  else if ty = LOOKUP_ADDRESS_TYPE_IPV4 then
    if jsStartsWith stored "geo:" || jsStartsWith stored "fqdn:" then Bool.xor negate matchAll
    else if jsContainsChar stored ':' then negate
    else if jsContainsChar stored '-' then
      if isIPv4WithPrefixLengthIncludedInRange q stored then !negate else negate
    else if atIdx (jsSplit stored "/") 1 ≠ "" then
      if !jsContainsChar (atIdx (jsSplit stored "/") 1) '.' then
        if isIPv4WithPrefixLengthIncludedInSegment q stored then !negate else negate
      else
        if isIPv4WithPrefixLengthIncludedInFortinetWildcardAddr q stored then !negate else negate
    else negate
  else if ty = LOOKUP_ADDRESS_TYPE_IPV6 then
    if jsStartsWith stored "geo:" || jsStartsWith stored "fqdn:" then Bool.xor negate matchAll
    else if !jsContainsChar stored ':' then negate
    else if jsContainsChar stored '-' then
      if isIPv6WithPrefixLengthIncludedInRange q stored then !negate else negate
    else if jsContainsChar stored '/' then
      if isIPv6WithPrefixLengthIncludedInSegment q stored then !negate else negate
    else negate
  else negate



/-- Matched verdict, tagged output line, policy key, ineffectual trigger,
and status flag computed by one iteration of
`lookUpAddrInNormalizedPoliciesArray`'s loop for one normalized row. -/
structure RowInfo where
  matched : Bool
  add : String
  key : String
  trigger : Bool
  statusEnable : Bool

/-- The per-row computations of `lookUpAddrInNormalizedPoliciesArray`'s
loop body, before the two output arrays and the ineffectual-key object are
touched: the address-type skip test, the three-way match computation with
the service-destination narrowing, the tagged line, the policy key, and
the catch-all-deny trigger condition. -/
def lookUpRowInfo (srcAddr srcFull : String) (sTy : ℕ) (dstAddr dstFull : String)
    (dTy : ℕ) (matchAll : Bool) (line : String) : RowInfo :=
  let tok := jsSplit line ","
  let polType := atIdx tok 3
  let is44 : Bool := polType == "4to4" || polType == "4to4m"
  let is66 : Bool := polType == "6to6" || polType == "6to6m"
  let is46 : Bool := polType == "4to6"
  let is64 : Bool := polType == "6to4"
  let skip : Bool :=
    (is44 && (sTy == LOOKUP_ADDRESS_TYPE_IPV6 || dTy == LOOKUP_ADDRESS_TYPE_IPV6)) ||
    (is46 && (sTy == LOOKUP_ADDRESS_TYPE_IPV6 || dTy == LOOKUP_ADDRESS_TYPE_IPV4)) ||
    (is64 && (sTy == LOOKUP_ADDRESS_TYPE_IPV4 || dTy == LOOKUP_ADDRESS_TYPE_IPV6)) ||
    (is66 && (sTy == LOOKUP_ADDRESS_TYPE_IPV4 || dTy == LOOKUP_ADDRESS_TYPE_IPV4))
  let svcDst := atIdx tok 13
  let sNeg : Bool := atIdx tok 15 == "enable"
  let dNeg : Bool := atIdx tok 16 == "enable"
  let vNeg : Bool := atIdx tok 17 == "enable"
  let tagOf : ℕ → String := fun ty =>
    if ty = LOOKUP_ADDRESS_TYPE_FQDN then "fqdn:"
    else if ty = LOOKUP_ADDRESS_TYPE_GEO then "geo:" else ""
  let svcNarrow : Bool :=
    if svcDst ≠ "0/0" ∧ svcDst ≠ "-" then isWithin svcDst dstFull dTy vNeg matchAll
    else true
  let mcol : Bool × Bool × String :=
    if sTy ≠ LOOKUP_ADDRESS_TYPE_UNKNOWN ∧ dTy = LOOKUP_ADDRESS_TYPE_UNKNOWN then
      let m := isWithin (atIdx tok 9) srcFull sTy sNeg matchAll
      (m, m, "from_" ++ tagOf sTy ++ srcAddr)
    else if sTy = LOOKUP_ADDRESS_TYPE_UNKNOWN ∧ dTy ≠ LOOKUP_ADDRESS_TYPE_UNKNOWN then
      (isWithin (atIdx tok 11) dstFull dTy dNeg matchAll && svcNarrow, false,
       "to_" ++ tagOf dTy ++ dstAddr)
    else
      let b := (isWithin (atIdx tok 9) srcFull sTy sNeg matchAll &&
                isWithin (atIdx tok 11) dstFull dTy dNeg matchAll) && svcNarrow
      (b, b, "from_" ++ tagOf sTy ++ srcAddr ++ "_to_" ++ tagOf dTy ++ dstAddr)
  let s4 : Bool := atIdx tok 9 == "0.0.0.0/0"
  let s6 : Bool := atIdx tok 9 == "0000:0000:0000:0000:0000:0000:0000:0000/0"
  let d4 : Bool := atIdx tok 11 == "0.0.0.0/0"
  let d6 : Bool := atIdx tok 11 == "0000:0000:0000:0000:0000:0000:0000:0000/0"
  { matched := !skip && mcol.1,
    add := mcol.2.2 ++ "," ++ line,
    key := polType ++ "_" ++ atIdx tok 1 ++ "_" ++ atIdx tok 2,
    trigger :=
      (atIdx tok 7 == "deny") && (atIdx tok 18 == "enable") && (atIdx tok 8 == "ip") &&
      ((is44 && s4 && d4) || (is66 && s6 && d6) || (is46 && s4 && d6) ||
       (mcol.2.1 && ((is44 && d4) || ((is46 || is66) && d6)))),
    statusEnable := atIdx tok 18 == "enable" }

/-- The two result arrays and the ineffectual-key object threaded through
`lookUpAddrInNormalizedPoliciesArray`'s loop. -/
structure LookState where
  all : List String
  without : List String
  keys : List String

/-- One iteration of `lookUpAddrInNormalizedPoliciesArray`'s loop: a
matched row is pushed to the all-matches array; its key is recorded as
ineffectual when the trigger condition holds; it is then pushed to the
without-ineffectual array when its status is enable and its key is absent
from the (already updated) ineffectual-key object. -/
def lookUpRow (srcAddr srcFull : String) (sTy : ℕ) (dstAddr dstFull : String)
    (dTy : ℕ) (matchAll : Bool) (st : LookState) (line : String) : LookState :=
  let info := lookUpRowInfo srcAddr srcFull sTy dstAddr dstFull dTy matchAll line
  if info.matched then
    let keys1 := if info.trigger then info.key :: st.keys else st.keys
    { all := st.all ++ [info.add],
      without := if info.statusEnable && !(keys1.contains info.key)
                 then st.without ++ [info.add] else st.without,
      keys := keys1 }
  else st

/-- Source `lookUpAddrInNormalizedPoliciesArray`: append the matched rows
(and the matched rows not ruled ineffectual) to the two result arrays; an
invalid IPv6 lookup address stops the lookup, leaving the arrays
untouched. -/
def lookUpAddrInNormalizedPoliciesArray (rows : List String) (srcAddr : String)
    (sTy : ℕ) (dstAddr : String) (dTy : ℕ) (matchAll : Bool)
    (arrayResult arrayResultWithoutIneffectual : List String) :
    List String × List String :=
  let srcFull := if sTy = LOOKUP_ADDRESS_TYPE_IPV6
    then getIPv6FullRepresentedAddrWithPrefixLength srcAddr else srcAddr
  if sTy = LOOKUP_ADDRESS_TYPE_IPV6 ∧ srcFull = "" then
    (arrayResult, arrayResultWithoutIneffectual)
  else
    let dstFull := if dTy = LOOKUP_ADDRESS_TYPE_IPV6
      then getIPv6FullRepresentedAddrWithPrefixLength dstAddr else dstAddr
    if dTy = LOOKUP_ADDRESS_TYPE_IPV6 ∧ dstFull = "" then
      (arrayResult, arrayResultWithoutIneffectual)
    else
      let fin := rows.foldl (lookUpRow srcAddr srcFull sTy dstAddr dstFull dTy matchAll)
        ⟨arrayResult, arrayResultWithoutIneffectual, []⟩
      (fin.all, fin.without)



/-- Line splitting on CR-LF, CR, or LF, as the source's line split does. -/
def splitLinesGo : List Char → List Char → List String
  | [], acc => [⟨acc.reverse⟩]
  | '\r' :: '\n' :: rest, acc => (⟨acc.reverse⟩ : String) :: splitLinesGo rest []
  | '\r' :: rest, acc => (⟨acc.reverse⟩ : String) :: splitLinesGo rest []
  | '\n' :: rest, acc => (⟨acc.reverse⟩ : String) :: splitLinesGo rest []
  | c :: rest, acc => splitLinesGo rest (c :: acc)

/-- The lookup list split into lines. -/
def splitJsLines (s : String) : List String := splitLinesGo s.data []

/-- JavaScript `String.prototype.trim`. -/
def jsTrim (s : String) : String :=
  ⟨((s.data.dropWhile jsIsSpace).reverse.dropWhile jsIsSpace).reverse⟩

/-- A non-empty run of decimal digits, one regex `\d+` atom. -/
def isDigitRun (cs : List Char) : Bool := !cs.isEmpty && cs.all isDigitChar

/-- The anchored dotted-quad regex of `lookUpAddrList`: four non-empty
digit runs joined by periods. -/
def isDottedQuad (s : String) : Bool :=
  match jsSplit s "." with
  | [a, b, c, d] =>
    isDigitRun a.data && isDigitRun b.data && isDigitRun c.data && isDigitRun d.data
  | _ => false

/-- The anchored dotted-quad-with-prefix-length regex of `lookUpAddrList`:
a dotted quad, a slash, and a non-empty digit run. -/
def isDottedQuadCidr (s : String) : Bool :=
  match jsSplit s "/" with
  | [q, p] => isDottedQuad q && isDigitRun p.data
  | _ => false

/-- A decimal digit or an ASCII letter, the first and last character class
of one hostname-regex group. -/
def isHostAlnum (c : Char) : Bool :=
  isDigitChar c || ('A' ≤ c && c ≤ 'Z') || ('a' ≤ c && c ≤ 'z')

/-- A decimal digit, an ASCII letter, or a hyphen, the middle character
class of one hostname-regex group. -/
def isHostMid (c : Char) : Bool := isHostAlnum c || c = '-'

/-- Backtracking matcher for the anchored hostname regex of
`lookUpAddrList`: one or more groups, each an alphanumeric character, one
to sixty-one middle characters, a final alphanumeric character, and an
optional period; the fuel bounds the number of groups. -/
def hostRun : ℕ → List Char → Bool
  | 0, _ => false
  | fuel + 1, cs =>
    match cs with
    | [] => false
    | a :: rest =>
      isHostAlnum a &&
        (List.range 61).any fun k =>
          decide ((rest.take (k + 1)).length = k + 1) &&
          (rest.take (k + 1)).all isHostMid &&
          match rest.drop (k + 1) with
          | [] => false
          | b :: rest2 =>
            isHostAlnum b &&
              (rest2.isEmpty || hostRun fuel rest2 ||
               (match rest2 with
                | '.' :: rest3 => rest3.isEmpty || hostRun fuel rest3
                | _ => false))

/-- Classification of one lookup address field performed inline by
`lookUpAddrList`: the result is the lookup address type together with the
possibly rewritten address string (`geo:`/`fqdn:` prefixes stripped, a
bare dotted quad extended with `/32`). -/
def classifyLookupAddr (s : String) : ℕ × String :=
  if jsStartsWith s "geo:" then (LOOKUP_ADDRESS_TYPE_GEO, (⟨s.data.drop 4⟩ : String))
  else if jsStartsWith s "fqdn:" then (LOOKUP_ADDRESS_TYPE_FQDN, (⟨s.data.drop 5⟩ : String))
  else if isDottedQuadCidr s then (LOOKUP_ADDRESS_TYPE_IPV4, s)
  else if isDottedQuad s then (LOOKUP_ADDRESS_TYPE_IPV4, s ++ "/32")
  else if jsContainsChar s ':' then (LOOKUP_ADDRESS_TYPE_IPV6, s)
  else if hostRun s.data.length s.data then (LOOKUP_ADDRESS_TYPE_FQDN, s)
  else (LOOKUP_ADDRESS_TYPE_UNKNOWN, s)

/-- One line of `lookUpAddrList`'s loop: trim the line, skip blank and
comment lines, classify the source and destination fields (skipping the
line when a non-empty field classifies as unknown), and look the pair up
in the normalized rows. -/
def lookUpLine (rows : List String) (matchAll : Bool)
    (acc : List String × List String) (line0 : String) : List String × List String :=
  let strLine := jsTrim line0
  if strLine.data.isEmpty then acc
  else if strLine.data.take 1 = ['!'] ∨ strLine.data.take 1 = ['#'] then acc
  else
    let arrayLookupAddr := jsSplit strLine ","
    let src0 := jsTrim (atIdx arrayLookupAddr 0)
    let dst0 := jsTrim (atIdx arrayLookupAddr 1)
    let sc := if src0 ≠ "" then classifyLookupAddr src0
              else (LOOKUP_ADDRESS_TYPE_UNKNOWN, src0)
    if src0 ≠ "" ∧ sc.1 = LOOKUP_ADDRESS_TYPE_UNKNOWN then acc
    else
      let dc := if dst0 ≠ "" then classifyLookupAddr dst0
                else (LOOKUP_ADDRESS_TYPE_UNKNOWN, dst0)
      if dst0 ≠ "" ∧ dc.1 = LOOKUP_ADDRESS_TYPE_UNKNOWN then acc
      else lookUpAddrInNormalizedPoliciesArray rows sc.2 sc.1 dc.2 dc.1 matchAll acc.1 acc.2

/-- Source `lookUpAddrList`: reset both result arrays, then process every
line of the lookup list in order. -/
def lookUpAddrList (rows : List String) (listOfLookUpAddr : String) (matchAll : Bool) :
    List String × List String :=
  (splitJsLines listOfLookUpAddr).foldl (lookUpLine rows matchAll) ([], [])


/-- Claim C2, counterexample: the fast path of `isWithin` is keyed on the
STORED token being the family-wide all, not on the lookup query.  Here the
query is the IPv4 family-wide all `0.0.0.0/0`, the stored token is the
well-formed IPv4 value `192.168.0.1/32`, and the negate flag is false, so
the claim requires the verdict `!false = true`; the code answers false
(the query's host addresses are not all inside `192.168.0.1/32`, and no
fast path fires). -/
theorem claim_C2_counterexample :
    ¬ (isWithin "192.168.0.1/32" "0.0.0.0/0" LOOKUP_ADDRESS_TYPE_IPV4 false false = !false) := by
  decide

/-- Claim C2 (amended): the fast path of `isWithin` fires when the STORED
token (not the query) is the family-wide all of the lookup-query family —
`0.0.0.0/0` for an IPv4-classified query, the full-represented
all-zero `/0` for an IPv6-classified query — and then the verdict is the
negation of the negate flag, regardless of the query's actual extent. -/
theorem claim_C2_amended (stored q : String) (ty : ℕ) (negate matchAll : Bool)
    (h : (ty = LOOKUP_ADDRESS_TYPE_IPV4 ∧ stored = "0.0.0.0/0") ∨
         (ty = LOOKUP_ADDRESS_TYPE_IPV6 ∧
           stored = "0000:0000:0000:0000:0000:0000:0000:0000/0")) :
    isWithin stored q ty negate matchAll = !negate := by
  unfold isWithin
  rw [if_pos h]

theorem claim_C2_witness :
    isWithin "0.0.0.0/0" "192.168.0.5/32" LOOKUP_ADDRESS_TYPE_IPV4 true false = !true :=
  claim_C2_amended "0.0.0.0/0" "192.168.0.5/32" LOOKUP_ADDRESS_TYPE_IPV4 true false
    (Or.inl ⟨rfl, rfl⟩)

/-- Claim C8: for the stored value `fqdn:*.example.com` an FQDN-classified
query `example.com` does not match while `.example.com` and
`www.example.com` match and `a.b.example.com` does not; and in general the
wildcard matcher behind `isWithin`'s FQDN branch accepts exactly the
declarative pattern reading `WMatches`, in which each `*` matches a
possibly empty run of non-dot characters, every other pattern character
matches itself, and the pattern is anchored over the whole query. -/
theorem claim_C8 :
    (isWithin "fqdn:*.example.com" "example.com" LOOKUP_ADDRESS_TYPE_FQDN false false
        = false ∧
     isWithin "fqdn:*.example.com" ".example.com" LOOKUP_ADDRESS_TYPE_FQDN false false
        = true ∧
     isWithin "fqdn:*.example.com" "www.example.com" LOOKUP_ADDRESS_TYPE_FQDN false false
        = true ∧
     isWithin "fqdn:*.example.com" "a.b.example.com" LOOKUP_ADDRESS_TYPE_FQDN false false
        = false) ∧
    ∀ pat q : String, wcMatch pat q = true ↔ WMatches pat.data q.data :=
  ⟨by decide, wcMatch_correct⟩

/-- `FirewallPolicy4to4.end` (and identically `FirewallPolicy6to6.end`):
the three negate parameters are re-encoded as the strings
`true`/`false` — `enable` becomes `true`, anything else `false`. -/
def negateColumnValue (s : String) : String := if s = "enable" then "true" else "false"

/-- `FirewallPolicy4to4.end`: encode the negate fields, then normalize the
parameter object into CSV rows of policy type `4to4`. -/
def firewallPolicy4to4End (dom editName : String) (n : ℕ) (p : PolicyParams)
    (sc sg : List (String × ℕ)) : List String :=
  normalizeFirewallPolicy dom "4to4" editName n
    { p with srcaddr_negate := negateColumnValue p.srcaddr_negate,
             dstaddr_negate := negateColumnValue p.dstaddr_negate,
             service_negate := negateColumnValue p.service_negate } sc sg

/-- Failing input for claim C1: a `config firewall policy` edit with
`set srcaddr-negate enable` and singleton member lists. -/
def c1Params : PolicyParams :=
  { srcintf := "\"port1\"", dstintf := "\"port2\"",
    srcaddr := "\"192.168.0.0/24\"", dstaddr := "\"10.0.0.0/8\"",
    service := "\"ALL\"", schedule := "always",
    srcaddr_negate := "enable", dstaddr_negate := "", service_negate := "",
    name := "p1", action := "accept", status := "enable", comments := "-" }

/-- The single normalized row produced from the claim-C1 failing input. -/
def c1Rows : List String := firewallPolicy4to4End "root" "1" 1 c1Params [] []

set_option maxRecDepth 100000 in
/-- Claim C1 (code bug): normalization encodes `set srcaddr-negate enable`
as the column string `true`, but the lookup loop reconstructs the negate
flag by comparing that column with `enable`, which the string `true` never
equals — so the negation is silently dropped.  For the failing input the
single normalized row carries `true` in its SA_NEGATE column, a source
lookup of `192.168.0.5/32` (inside the row's `192.168.0.0/24`) still
matches the row end to end, yet the negated oracle verdict required by the
claim is false. -/
theorem claim_C1 :
    c1Rows.length = 1 ∧
    (∀ r ∈ c1Rows,
      atIdx (jsSplit r ",") 15 = "true" ∧
      ((atIdx (jsSplit r ",") 15 == "enable") = false) ∧
      (lookUpRowInfo "192.168.0.5/32" "192.168.0.5/32" LOOKUP_ADDRESS_TYPE_IPV4 "" ""
          LOOKUP_ADDRESS_TYPE_UNKNOWN false r).matched = true ∧
      isWithin (atIdx (jsSplit r ",") 9) "192.168.0.5/32" LOOKUP_ADDRESS_TYPE_IPV4
          true false = false) ∧
    (lookUpAddrInNormalizedPoliciesArray c1Rows "192.168.0.5/32"
        LOOKUP_ADDRESS_TYPE_IPV4 "" LOOKUP_ADDRESS_TYPE_UNKNOWN false [] []).1.length
      = 1 := by
  decide

/-- Failing row for claim C3: a matched catch-all deny row — action
`deny`, status `enable`, protocol `ip`, source and destination both the
IPv4 `0.0.0.0/0` — of policy type `4to4`. -/
def c3Row : String :=
  "root,port1,port2,4to4,1,p1,1,deny,ip,0.0.0.0/0,-/-,0.0.0.0/0,-/-,-,-,false,false,false,enable,-,always,-"

set_option maxRecDepth 100000 in
/-- Claim C3, counterexample: the loop records the ineffectual key BEFORE
the without-ineffectual push test, so the triggering catch-all deny row is
itself excluded from the without-ineffectual view, contradicting the
claim's "the triggering deny row itself ... remain[s] in the
without-ineffectual view": with a single matched catch-all deny row the
all-matches view holds that row while the without-ineffectual view is
empty. -/
theorem claim_C3_counterexample :
    lookUpAddrInNormalizedPoliciesArray [c3Row] "192.168.0.5/32"
        LOOKUP_ADDRESS_TYPE_IPV4 "" LOOKUP_ADDRESS_TYPE_UNKNOWN false [] []
      = (["from_192.168.0.5/32," ++ c3Row], []) := by
  decide


/-- The all-matches additions of one pass of
`lookUpAddrInNormalizedPoliciesArray`'s loop: every matched row, tagged
with its first column. -/
def c3AllAdds (srcAddr srcFull : String) (sTy : ℕ) (dstAddr dstFull : String)
    (dTy : ℕ) (matchAll : Bool) (rows : List String) : List String :=
  (rows.filter fun r =>
      (lookUpRowInfo srcAddr srcFull sTy dstAddr dstFull dTy matchAll r).matched).map
    fun r => (lookUpRowInfo srcAddr srcFull sTy dstAddr dstFull dTy matchAll r).add

/-- The without-ineffectual additions of one pass of the loop, given the
ineffectual keys discovered so far: a matched row is kept exactly when its
status is enable and its key is not among the keys discovered up to and
including its own trigger — so a triggering catch-all deny row is itself
dropped, and a key discovered by a row never affects earlier rows. -/
def c3WithoutAdds (srcAddr srcFull : String) (sTy : ℕ) (dstAddr dstFull : String)
    (dTy : ℕ) (matchAll : Bool) (keys : List String) : List String → List String
  | [] => []
  | r :: rest =>
    let info := lookUpRowInfo srcAddr srcFull sTy dstAddr dstFull dTy matchAll r
    if info.matched then
      (if info.statusEnable &&
          !((if info.trigger then info.key :: keys else keys).contains info.key)
       then [info.add] else []) ++
        c3WithoutAdds srcAddr srcFull sTy dstAddr dstFull dTy matchAll
          (if info.trigger then info.key :: keys else keys) rest
    else c3WithoutAdds srcAddr srcFull sTy dstAddr dstFull dTy matchAll keys rest

/-- Claim C3 (amended): over any row list and any starting state, the
all-matches array gains exactly the matched rows (tagged, in order), and
the without-ineffectual array gains exactly the matched rows whose status
is enable and whose key is absent from the ineffectual-key set as updated
through that row's own trigger — so an ineffectual-deny key K excludes the
triggering row itself together with every later matched row under K, while
matched rows under other keys, and all matched rows in the all-matches
view, are kept. -/
theorem claim_C3_amended (srcAddr srcFull : String) (sTy : ℕ) (dstAddr dstFull : String)
    (dTy : ℕ) (matchAll : Bool) (rows : List String) (st : LookState) :
    (rows.foldl (lookUpRow srcAddr srcFull sTy dstAddr dstFull dTy matchAll) st).all
      = st.all ++ c3AllAdds srcAddr srcFull sTy dstAddr dstFull dTy matchAll rows ∧
    (rows.foldl (lookUpRow srcAddr srcFull sTy dstAddr dstFull dTy matchAll) st).without
      = st.without ++
        c3WithoutAdds srcAddr srcFull sTy dstAddr dstFull dTy matchAll st.keys rows := by
  induction rows generalizing st with
  | nil => simp [c3AllAdds, c3WithoutAdds]
  | cons r rest ih =>
    simp only [List.foldl_cons, c3AllAdds, List.filter_cons, c3WithoutAdds]
    by_cases hm : (lookUpRowInfo srcAddr srcFull sTy dstAddr dstFull dTy matchAll r).matched
    · simp only [hm, if_true, List.map_cons]
      have hrow : lookUpRow srcAddr srcFull sTy dstAddr dstFull dTy matchAll st r =
          { all := st.all ++ [(lookUpRowInfo srcAddr srcFull sTy dstAddr dstFull dTy matchAll r).add],
            without :=
              if (lookUpRowInfo srcAddr srcFull sTy dstAddr dstFull dTy matchAll r).statusEnable &&
                 !((if (lookUpRowInfo srcAddr srcFull sTy dstAddr dstFull dTy matchAll r).trigger
                    then (lookUpRowInfo srcAddr srcFull sTy dstAddr dstFull dTy matchAll r).key :: st.keys
                    else st.keys).contains
                     (lookUpRowInfo srcAddr srcFull sTy dstAddr dstFull dTy matchAll r).key)
              then st.without ++ [(lookUpRowInfo srcAddr srcFull sTy dstAddr dstFull dTy matchAll r).add]
              else st.without,
            keys := if (lookUpRowInfo srcAddr srcFull sTy dstAddr dstFull dTy matchAll r).trigger
                    then (lookUpRowInfo srcAddr srcFull sTy dstAddr dstFull dTy matchAll r).key :: st.keys
                    else st.keys } := by
        simp only [lookUpRow, hm, if_true]
      rw [hrow]
      obtain ⟨ih1, ih2⟩ := ih _
      constructor
      · rw [ih1]
        simp [c3AllAdds, List.append_assoc]
      · rw [ih2]
        by_cases hp : (lookUpRowInfo srcAddr srcFull sTy dstAddr dstFull dTy matchAll r).statusEnable &&
            !((if (lookUpRowInfo srcAddr srcFull sTy dstAddr dstFull dTy matchAll r).trigger
               then (lookUpRowInfo srcAddr srcFull sTy dstAddr dstFull dTy matchAll r).key :: st.keys
               else st.keys).contains
                (lookUpRowInfo srcAddr srcFull sTy dstAddr dstFull dTy matchAll r).key)
        · simp only [hp, if_true, List.append_assoc, List.singleton_append]
        · simp only [hp, if_false, Bool.false_eq_true, List.nil_append]
    · simp only [hm, if_false]
      have hrow : lookUpRow srcAddr srcFull sTy dstAddr dstFull dTy matchAll st r = st := by
        simp only [lookUpRow, hm]
        simp
      rw [hrow]
      exact ih st


/-- Fold preservation: a property kept by each step is kept by `foldl`. -/
theorem foldl_hold {α β : Type} (f : β → α → β) (P : β → Prop)
    (h : ∀ b a, P b → P (f b a)) : ∀ (l : List α) (b : β), P b → P (l.foldl f b) := by
  intro l
  induction l with
  | nil => intro b hb; exact hb
  | cons x xs ih => intro b hb; exact ih (f b x) (h b x hb)

/-- One loop iteration keeps the without-ineffectual array a sublist of
the all-matches array. -/
theorem sublist_lookUpRow (srcAddr srcFull : String) (sTy : ℕ) (dstAddr dstFull : String)
    (dTy : ℕ) (matchAll : Bool) (st : LookState) (line : String)
    (h : st.without.Sublist st.all) :
    (lookUpRow srcAddr srcFull sTy dstAddr dstFull dTy matchAll st line).without.Sublist
      (lookUpRow srcAddr srcFull sTy dstAddr dstFull dTy matchAll st line).all := by
  simp only [lookUpRow]
  split
  · dsimp only
    split
    all_goals
      first
        | exact h.append (List.Sublist.refl _)
        | exact h.trans (List.sublist_append_left _ _)
        | (split
           all_goals
             first
               | exact h.append (List.Sublist.refl _)
               | exact h.trans (List.sublist_append_left _ _))
  · exact h

/-- One array-level lookup keeps the without-ineffectual array a sublist
of the all-matches array. -/
theorem sublist_lookUpArr (rows : List String) (srcAddr : String) (sTy : ℕ)
    (dstAddr : String) (dTy : ℕ) (matchAll : Bool) (all0 without0 : List String)
    (h : without0.Sublist all0) :
    (lookUpAddrInNormalizedPoliciesArray rows srcAddr sTy dstAddr dTy matchAll
        all0 without0).2.Sublist
      (lookUpAddrInNormalizedPoliciesArray rows srcAddr sTy dstAddr dTy matchAll
        all0 without0).1 := by
  simp only [lookUpAddrInNormalizedPoliciesArray]
  split_ifs <;>
    first
      | exact h
      | exact foldl_hold _ (fun st => st.without.Sublist st.all)
          (fun st line => sublist_lookUpRow _ _ _ _ _ _ _ st line)
          rows ⟨all0, without0, []⟩ h

set_option maxHeartbeats 2000000 in
/-- One line of the lookup list keeps the without-ineffectual array a
sublist of the all-matches array. -/
theorem sublist_lookUpLine (rows : List String) (matchAll : Bool)
    (acc : List String × List String) (line0 : String) (h : acc.2.Sublist acc.1) :
    (lookUpLine rows matchAll acc line0).2.Sublist (lookUpLine rows matchAll acc line0).1 := by
  simp only [lookUpLine]
  split_ifs <;>
    first
      | exact h
      | exact sublist_lookUpArr _ _ _ _ _ _ _ _ h

/-- Claim C9: for every normalized-row list, lookup list, and match-all
flag, the without-ineffectual result of `lookUpAddrList` is a sublist of
the all-matches result — every line of the former occurs in the latter,
in the same relative order. -/
theorem claim_C9 (rows : List String) (listOfLookUpAddr : String) (matchAll : Bool) :
    (lookUpAddrList rows listOfLookUpAddr matchAll).2.Sublist
      (lookUpAddrList rows listOfLookUpAddr matchAll).1 := by
  simp only [lookUpAddrList]
  exact foldl_hold _ (fun acc => acc.2.Sublist acc.1)
    (fun acc line => sublist_lookUpLine rows matchAll acc line)
    (splitJsLines listOfLookUpAddr) ([], []) (List.Sublist.refl _)

end FlatFortiGate
